import Mathlib

/-!
# Therapii callable functions: the invitation-code lifecycle

Shallow embedding of `functions/index.js`.  The `invitation_codes` collection is a
list of documents in the order in which queries return them; a document is keyed by
its `id` field, which `createInvitationAndSendEmail` writes as the document id and no
operation changes.  Firestore calls are taken to succeed except where a fault is an
explicit input.  A `Date` and an ISO date string are modelled by the number of
milliseconds since the epoch that they denote.
-/

namespace Therapii

/-! ## Data model -/

/-- Firestore `Timestamp`: whole seconds since the epoch and a nanosecond part. -/
structure Timestamp where
  seconds : Int
  nanoseconds : Nat
deriving DecidableEq

/-- The SDK conversion `Timestamp.toDate()`: the instant at millisecond precision. -/
def Timestamp.toDate (t : Timestamp) : Int :=
  t.seconds * 1000 + Int.ofNat ((t.nanoseconds + 500000) / 1000000)

/-- The SDK conversion `Timestamp.fromMillis`, used by `Timestamp.now()` and
`Timestamp.fromDate(date)`. -/
def Timestamp.fromMillis (ms : Int) : Timestamp :=
  { seconds := ms / 1000, nanoseconds := ((ms % 1000) * 1000000).toNat }

/-- A document of the `invitation_codes` collection, with the field names of the source. -/
structure InvitationDoc where
  id : String
  code : String
  therapist_id : String
  patient_email : String
  patient_first_name : String
  patient_last_name : Option String
  is_used : Bool
  created_at : Option Timestamp
  expires_at : Option Timestamp
  used_at : Option Timestamp
  patient_id : Option String
deriving DecidableEq

/-- The `invitation_codes` collection. -/
abbrev Store := List InvitationDoc

/-- The nine-field object returned by creation and by preview (no `usedAt`, no `patientId`). -/
structure InvitationSummary where
  id : String
  code : String
  therapistId : String
  patientEmail : String
  patientFirstName : String
  patientLastName : String
  isUsed : Bool
  createdAt : Int
  expiresAt : Int
deriving DecidableEq

/-- The eleven-field object returned by the list operations and by redemption. -/
structure InvitationView where
  id : String
  code : String
  therapistId : String
  patientEmail : String
  patientFirstName : String
  patientLastName : String
  isUsed : Bool
  createdAt : Int
  expiresAt : Int
  usedAt : Option Int
  patientId : Option String
deriving DecidableEq

/-- An error thrown as `functions.https.HttpsError(code, message)`. -/
structure HttpsError where
  code : String
  message : String
deriving DecidableEq

/-- The reply of `deleteInvitation`. -/
structure DeleteReply where
  success : Bool
deriving DecidableEq

deriving instance DecidableEq for Except

/-! ## JavaScript helpers -/

/-- Code points removed by `String.prototype.trim` (WhiteSpace and LineTerminator). -/
def isJsWhiteSpace (c : Char) : Bool :=
  let n := c.toNat
  n == 0x09 || n == 0x0A || n == 0x0B || n == 0x0C || n == 0x0D || n == 0x20 ||
  n == 0xA0 || n == 0x1680 || (0x2000 ≤ n && n ≤ 0x200A) || n == 0x2028 ||
  n == 0x2029 || n == 0x202F || n == 0x205F || n == 0x3000 || n == 0xFEFF

/-- The method `String.prototype.trim`. -/
def jsTrim (s : String) : String :=
  String.mk ((s.data.dropWhile isJsWhiteSpace).reverse.dropWhile isJsWhiteSpace).reverse

/-- The test `/^\d{5}$/.test(code)`. -/
def isFiveDigits (s : String) : Bool :=
  s.data.length == 5 && s.data.all Char.isDigit

/-- The expression `x || ''` on an optional string. -/
def orEmpty (x : Option String) : String :=
  match x with
  | some v => v
  | none => ""

/-- The expression `x || null` on an optional string: the empty string is falsy. -/
def orNull (x : Option String) : Option String :=
  match x with
  | some v => if v = "" then none else some v
  | none => none

/-- The method `Array.prototype.sort(cmp)`: a stable sort placing `a` before `b` when
`cmp(a, b) <= 0`. -/
def jsSort {α : Type} (cmp : α → α → Int) (l : List α) : List α :=
  List.insertionSort (fun a b => cmp a b ≤ 0) l

/-! ## Store primitives -/

/-- The query `.where('code', '==', code).limit(1).get()` (also the body of `codeExists`). -/
def queryByCode (s : Store) (code : String) : List InvitationDoc :=
  (s.filter (fun d => d.code == code)).take 1

/-- The source function `codeExists`. -/
def codeExists (s : Store) (code : String) : Bool :=
  !(queryByCode s code).isEmpty

/-- The read `ref.get()` / `tx.get(ref)` of the document with the given id. -/
def getDoc (s : Store) (ref : String) : Option InvitationDoc :=
  s.find? (fun d => d.id == ref)

/-- The write `ref.update(fields)`, with the field changes given as a function. -/
def updateDoc (s : Store) (ref : String) (f : InvitationDoc → InvitationDoc) : Store :=
  s.map (fun d => if d.id = ref then f d else d)

/-- The write `ref.delete()`. -/
def deleteDoc (s : Store) (ref : String) : Store :=
  s.filter (fun d => d.id != ref)

/-- The write `ref.set(doc)`: replaces the document with that id, or adds it. -/
def setDoc (s : Store) (doc : InvitationDoc) : Store :=
  if s.any (fun d => d.id == doc.id) then s.map (fun d => if d.id = doc.id then doc else d)
  else s ++ [doc]

/-- The expression `inv.expires_at?.toDate ? inv.expires_at.toDate() : new Date(0)`. -/
def expiresAtDate (inv : InvitationDoc) : Int :=
  match inv.expires_at with
  | some t => t.toDate
  | none => 0

/-- The expression `inv.created_at?.toDate?.() || new Date(0)`. -/
def createdAtDate (inv : InvitationDoc) : Int :=
  match inv.created_at with
  | some t => t.toDate
  | none => 0

/-- The projection used by the three list operations (lines 656-668). -/
def toView (inv : InvitationDoc) : InvitationView :=
  { id := inv.id
    code := inv.code
    therapistId := inv.therapist_id
    patientEmail := inv.patient_email
    patientFirstName := inv.patient_first_name
    patientLastName := orEmpty inv.patient_last_name
    isUsed := inv.is_used
    createdAt := createdAtDate inv
    expiresAt := expiresAtDate inv
    usedAt := inv.used_at.map Timestamp.toDate
    patientId := orNull inv.patient_id }

/-- The code argument handling shared by preview and redemption (lines 683-686, 732-735);
`none` stands for a `data.code` that is not a string. -/
def parseCode (raw : Option String) : Except HttpsError String :=
  let code := match raw with
    | some s => jsTrim s
    | none => ""
  if code = "" ∨ isFiveDigits code = false then
    .error { code := "invalid-argument", message := "code must be a 5-digit string" }
  else .ok code

/-! ## validateAndUseInvitation -/

/-- Clock readings of one redemption: `new Date()` at the validity check, `new Date()`
for the returned `usedAt`, and the value `FieldValue.serverTimestamp()` resolves to. -/
structure RedeemClock where
  now : Int
  stamp : Int
  server : Timestamp

/-- The field changes of `tx.update(ref, ...)` (lines 763-767). -/
def consume (patientId : String) (server : Timestamp) (d : InvitationDoc) : InvitationDoc :=
  { d with is_used := true, used_at := some server, patient_id := some patientId }

/-- The object returned by a successful transaction (lines 769-781). -/
def redeemedView (inv : InvitationDoc) (patientId : String) (stamp : Int) : InvitationView :=
  { id := inv.id
    code := inv.code
    therapistId := inv.therapist_id
    patientEmail := inv.patient_email
    patientFirstName := inv.patient_first_name
    patientLastName := orEmpty inv.patient_last_name
    isUsed := true
    createdAt := createdAtDate inv
    expiresAt := expiresAtDate inv
    usedAt := some stamp
    patientId := some patientId }

/-- The transaction body passed to `db.runTransaction` (lines 753-782). -/
def redeemTransaction (s : Store) (ref patientId : String) (clk : RedeemClock) :
    Store × Option InvitationView :=
  match getDoc s ref with
  | none => (s, none)
  | some inv =>
    if inv.is_used = true ∨ expiresAtDate inv ≤ clk.now then (s, none)
    else (updateDoc s ref (consume patientId clk.server), some (redeemedView inv patientId clk.stamp))

/-- What the part of `validateAndUseInvitation` before the transaction yields: either
the reply (an error, or a null invitation) or the reference to run the transaction on. -/
inductive Lookup where
  | reply (r : Except HttpsError (Option InvitationView))
  | located (patientId ref : String)

/-- Lines 728-751 of `validateAndUseInvitation`: authentication, code check, lookup query. -/
def redeemLookup (s : Store) (auth raw : Option String) : Lookup :=
  match auth with
  | none => .reply (.error { code := "unauthenticated", message := "Sign in required." })
  | some patientId =>
    match parseCode raw with
    | .error e => .reply (.error e)
    | .ok code =>
      match queryByCode s code with
      | [] => .reply (.ok none)
      | doc :: _ => .located patientId doc.id

/-- The callable `validateAndUseInvitation`: the new store and the reply, where
`.ok r` stands for the object with `invitation: r`. -/
def validateAndUseInvitation (s : Store) (auth raw : Option String) (clk : RedeemClock) :
    Store × Except HttpsError (Option InvitationView) :=
  match redeemLookup s auth raw with
  | .reply r => (s, r)
  | .located patientId ref =>
    let t := redeemTransaction s ref patientId clk
    (t.1, .ok t.2)

/-! ## Concurrent redemption -/

/-- Progress of one redemption request whose lookup query and transaction are atomic steps. -/
inductive RedeemPhase where
  | waiting
  | inTransaction (patientId ref : String)
  | replied (r : Except HttpsError (Option InvitationView))

/-- A redemption request in flight: the caller, the `data.code` argument, the progress. -/
structure RedeemRequest where
  auth : Option String
  raw : Option String
  phase : RedeemPhase

/-- One atomic step of a request: the lookup part, then the transaction; a request that
has replied does nothing. -/
def RedeemRequest.advance (s : Store) (clk : RedeemClock) (r : RedeemRequest) :
    Store × RedeemRequest :=
  match r.phase with
  | .waiting =>
    match redeemLookup s r.auth r.raw with
    | .reply x => (s, { r with phase := .replied x })
    | .located p ref => (s, { r with phase := .inTransaction p ref })
  | .inTransaction p ref =>
    let t := redeemTransaction s ref p clk
    (t.1, { r with phase := .replied (.ok t.2) })
  | .replied _ => (s, r)

/-- Runs two requests under a schedule: each entry says which request takes its next
step (`false` the first, `true` the second) and the clock readings of that step. -/
def runSchedule (s : Store) (r1 r2 : RedeemRequest) :
    List (Bool × RedeemClock) → Store × RedeemRequest × RedeemRequest
  | [] => (s, r1, r2)
  | (false, clk) :: rest => runSchedule (r1.advance s clk).1 (r1.advance s clk).2 r2 rest
  | (true, clk) :: rest => runSchedule (r2.advance s clk).1 r1 (r2.advance s clk).2 rest

/-- Two redemption requests for the same code, by callers `P1` and `P2`, run under a schedule. -/
def raceOutcome (s : Store) (c P1 P2 : String) (sched : List (Bool × RedeemClock)) :
    Store × RedeemRequest × RedeemRequest :=
  runSchedule s { auth := some P1, raw := some c, phase := .waiting }
    { auth := some P2, raw := some c, phase := .waiting } sched

/-! ## previewInvitationByCode -/

/-- The callable `previewInvitationByCode` (no authentication); `now` is `new Date()`. -/
def previewInvitationByCode (s : Store) (raw : Option String) (now : Int) :
    Except HttpsError (Option InvitationSummary) :=
  match parseCode raw with
  | .error e => .error e
  | .ok code =>
    match queryByCode s code with
    | [] => .ok none
    | inv :: _ =>
      if inv.is_used = true ∨ expiresAtDate inv ≤ now then .ok none
      else
        .ok (some
          { id := inv.id
            code := inv.code
            therapistId := inv.therapist_id
            patientEmail := inv.patient_email
            patientFirstName := inv.patient_first_name
            patientLastName := orEmpty inv.patient_last_name
            isUsed := false
            createdAt := createdAtDate inv
            expiresAt := expiresAtDate inv })

/-! ## deleteInvitation -/

/-- The callable `deleteInvitation`; `none` stands for an `invitationId` that is not a string. -/
def deleteInvitation (s : Store) (auth invitationId : Option String) :
    Store × Except HttpsError DeleteReply :=
  match auth with
  | none => (s, .error { code := "unauthenticated", message := "Sign in required." })
  | some therapistId =>
    let ref := orEmpty invitationId
    if ref = "" then
      (s, .error { code := "invalid-argument", message := "invitationId is required" })
    else
      match getDoc s ref with
      | none => (s, .error { code := "not-found", message := "Invitation not found" })
      | some inv =>
        if inv.therapist_id ≠ therapistId then
          (s, .error { code := "permission-denied", message := "Cannot delete this invitation" })
        else if inv.is_used = true then
          (s, .error { code := "failed-precondition", message := "Invitation already used" })
        else (deleteDoc s ref, .ok { success := true })

/-! ## The list operations -/

/-- The expression `(data && data.therapistId) || context.auth.uid`. -/
def resolveIdentity (arg : Option String) (uid : String) : String :=
  match orNull arg with
  | some a => a
  | none => uid

/-- Comparator of `getTherapistInvitations` (line 671). -/
def createdDesc (a b : InvitationView) : Int :=
  b.createdAt - a.createdAt

/-- The expression `a.usedAt ? new Date(a.usedAt).getTime() : 0`. -/
def usedAtMillis (a : InvitationView) : Int :=
  match a.usedAt with
  | some t => t
  | none => 0

/-- Comparator of the two accepted-invitation lists (lines 860-865). -/
def usedThenCreatedDesc (a b : InvitationView) : Int :=
  let au := usedAtMillis a
  let bu := usedAtMillis b
  if bu ≠ au then bu - au else b.createdAt - a.createdAt

/-- The callable `getTherapistInvitations`; `.ok l` stands for the object with `invitations: l`. -/
def getTherapistInvitations (s : Store) (auth arg : Option String) :
    Except HttpsError (List InvitationView) :=
  match auth with
  | none => .error { code := "unauthenticated", message := "Sign in required." }
  | some uid =>
    let therapistId := resolveIdentity arg uid
    if therapistId ≠ uid then
      .error { code := "permission-denied", message := "You can only view your own invitations." }
    else
      .ok (jsSort createdDesc ((s.filter (fun d => d.therapist_id == therapistId)).map toView))

/-- The callable `getAcceptedInvitationsForTherapist`. -/
def getAcceptedInvitationsForTherapist (s : Store) (auth arg : Option String) :
    Except HttpsError (List InvitationView) :=
  match auth with
  | none => .error { code := "unauthenticated", message := "Sign in required." }
  | some uid =>
    let therapistId := resolveIdentity arg uid
    if therapistId ≠ uid then
      .error { code := "permission-denied",
               message := "You can only view your own accepted invitations." }
    else
      .ok (jsSort usedThenCreatedDesc
        ((s.filter (fun d => d.therapist_id == therapistId && d.is_used == true)).map toView))

/-- The callable `getAcceptedInvitationsForPatient`. -/
def getAcceptedInvitationsForPatient (s : Store) (auth arg : Option String) :
    Except HttpsError (List InvitationView) :=
  match auth with
  | none => .error { code := "unauthenticated", message := "Sign in required." }
  | some uid =>
    let patientId := resolveIdentity arg uid
    if patientId ≠ uid then
      .error { code := "permission-denied", message := "You can only view your own invitations." }
    else
      .ok (jsSort usedThenCreatedDesc
        ((s.filter (fun d => d.patient_id == some patientId && d.is_used == true)).map toView))

/-! ## createInvitationAndSendEmail -/

/-- The `data` argument of creation; an empty string stands for a missing (falsy) field,
`none` for an omitted `patientLastName`. -/
structure CreateData where
  therapistId : String
  patientEmail : String
  patientFirstName : String
  patientLastName : Option String

/-- Which call of the creation body throws first, if any: a `codeExists` query, the
`invitationRef.set` write (nothing written), or `getSendGridConfig` after the write. -/
inductive CreateFault where
  | none
  | lookup
  | write
  | config
deriving DecidableEq

/-- What the surroundings supply to one creation. -/
structure CreateEnv where
  /-- Successive results of `generateCode()`. -/
  codes : List String
  /-- The auto-generated id of `collection('invitation_codes').doc()`. -/
  newId : String
  /-- The clock as read by `admin.firestore.Timestamp.now()`. -/
  stampNow : Int
  /-- The clock as read by `Date.now()`. -/
  dateNow : Int
  fault : CreateFault
  /-- The compensating `invitationRef.delete()` throws (and is swallowed). -/
  cleanupFails : Bool
  /-- The flag `sendGridConfig.enabled`. -/
  enabled : Bool
  /-- The value `sendGridConfig.fromEmail`. -/
  fromEmail : Option String
  /-- The constant `SENDER_EMAIL`. -/
  senderEmail : String
  /-- The calls `sgMail.setApiKey` or `sgMail.send` throw. -/
  sendThrows : Bool

/-- The reply of a successful creation. -/
structure CreateReply where
  success : Bool
  invitationId : String
  emailSent : Bool
  invitation : InvitationSummary
deriving DecidableEq

/-- The retry loop of lines 173-180 over the given draws: the first candidate for which
`codeExists` is false; `none` when every given draw is taken (the loop is still running). -/
def pickCode (s : Store) (codes : List String) : Option String :=
  codes.find? (fun c => !codeExists s c)

/-- The expression `(sendGridConfig.fromEmail || SENDER_EMAIL).toString().trim()`. -/
def senderAddress (env : CreateEnv) : String :=
  jsTrim (match orNull env.fromEmail with
    | some f => f
    | none => env.senderEmail)

/-- The value of `emailSent` after the notification block (lines 204-260). -/
def emailOutcome (env : CreateEnv) : Bool :=
  env.enabled && (senderAddress env != "") && !env.sendThrows

/-- The error thrown by the catch block of creation (the detail text of the underlying
error is not modelled). -/
def createFailure : HttpsError :=
  { code := "failed-precondition", message := "Failed to create invitation" }

/-- The record built at lines 189-199 for the chosen code. -/
def newInvitation (data : CreateData) (env : CreateEnv) (code : String) : InvitationDoc :=
  { id := env.newId
    code := code
    therapist_id := data.therapistId
    patient_email := data.patientEmail
    patient_first_name := data.patientFirstName
    patient_last_name := some (orEmpty data.patientLastName)
    is_used := false
    created_at := some (Timestamp.fromMillis env.stampNow)
    expires_at := some (Timestamp.fromMillis (env.dateNow + 48 * 60 * 60 * 1000))
    used_at := none
    patient_id := none }

/-- The object returned by a successful creation (lines 263-278). -/
def createReply (invitation : InvitationDoc) (emailSent : Bool) : CreateReply :=
  { success := true
    invitationId := invitation.id
    emailSent := emailSent
    invitation :=
      { id := invitation.id
        code := invitation.code
        therapistId := invitation.therapist_id
        patientEmail := invitation.patient_email
        patientFirstName := invitation.patient_first_name
        patientLastName := orEmpty invitation.patient_last_name
        isUsed := invitation.is_used
        createdAt := createdAtDate invitation
        expiresAt := expiresAtDate invitation } }

/-- The callable `createInvitationAndSendEmail` with its compensating delete, as one step;
`none` when the retry loop has not ended within the given draws. -/
def createInvitationAndSendEmail (s : Store) (auth : Option String) (data : CreateData)
    (env : CreateEnv) : Option (Store × Except HttpsError CreateReply) :=
  match auth with
  | none =>
    some (s, .error { code := "unauthenticated",
                      message := "User must be authenticated to create invitations" })
  | some uid =>
    if data.therapistId = "" ∨ data.patientEmail = "" ∨ data.patientFirstName = "" then
      some (s, .error { code := "invalid-argument",
                        message := "Missing required fields: therapistId, patientEmail, or patientFirstName" })
    else if uid ≠ data.therapistId then
      some (s, .error { code := "permission-denied",
                        message := "You can only create invitations for yourself" })
    else if env.fault = .lookup then some (s, .error createFailure)
    else
      match pickCode s env.codes with
      | none => none
      | some code =>
        let invitation := newInvitation data env code
        if env.fault = .write then
          some (if env.cleanupFails then s else deleteDoc s env.newId, .error createFailure)
        else
          let s1 := setDoc s invitation
          if env.fault = .config then
            some (if env.cleanupFails then s1 else deleteDoc s1 env.newId, .error createFailure)
          else
            some (s1, .ok (createReply invitation (emailOutcome env)))

/-! ## The module as a transition system -/

/-- One call of an operation of the module on `invitation_codes`, with everything the
surroundings supply to it. -/
inductive Op where
  | create (auth : Option String) (data : CreateData) (env : CreateEnv)
  | redeem (auth raw : Option String) (clk : RedeemClock)
  | delete (auth invitationId : Option String)
  | preview (raw : Option String) (now : Int)
  | listTherapist (auth arg : Option String)
  | listAcceptedTherapist (auth arg : Option String)
  | listAcceptedPatient (auth arg : Option String)

/-- The store after one operation taken as a step; the preview and the list operations
only read. `none` only for a creation whose retry loop has not ended. -/
def step (s : Store) : Op → Option Store
  | .create auth data env => (createInvitationAndSendEmail s auth data env).map Prod.fst
  | .redeem auth raw clk => some (validateAndUseInvitation s auth raw clk).1
  | .delete auth invitationId => some (deleteInvitation s auth invitationId).1
  | .preview _ _ => some s
  | .listTherapist _ _ => some s
  | .listAcceptedTherapist _ _ => some s
  | .listAcceptedPatient _ _ => some s

/-- Firestore documents have distinct, non-empty ids. -/
def Store.WF (s : Store) : Prop :=
  (s.map (fun d => d.id)).Nodup ∧ ∀ d ∈ s, d.id ≠ ""

instance Store.decidableWF (s : Store) : Decidable s.WF :=
  inferInstanceAs (Decidable (_ ∧ _))

/-- The code `c` names exactly one record of the store, `inv`. -/
def NamesOnly (s : Store) (c : String) (inv : InvitationDoc) : Prop :=
  inv ∈ s ∧ inv.code = c ∧ ∀ d ∈ s, d.code = c → d = inv

/-! ## generateCode -/

/-- Rounding of a rational to the nearest integer, ties to the even one. -/
def roundHalfEven (q : ℚ) : Int :=
  let f := Int.floor q
  if q - f < 1 / 2 then f
  else if 1 / 2 < q - f then f + 1
  else if f % 2 = 0 then f else f + 1

/-- The binary64 value of an exact result `x`: round to nearest, ties to even, with a
53-bit significand and least exponent -1022 (subnormals below `2 ^ -1022`). Overflow to
infinity is not modelled; every value rounded in this file is below `2 ^ 17`. -/
def roundDouble (x : ℚ) : ℚ :=
  if x = 0 then 0
  else
    let e := max (Int.log 2 |x|) (-1022)
    let ulp := (2 : ℚ) ^ (e - 52)
    roundHalfEven (x / ulp) * ulp

/-- A finite non-negative binary64 value `mant * 2 ^ exp`. -/
structure Double where
  mant : Nat
  exp : Int
  mant_lt : mant < 2 ^ 53
  exp_ge : -1074 ≤ exp
  exp_le : exp ≤ 971

/-- The rational denoted by a binary64 value. -/
def Double.toRat (d : Double) : ℚ :=
  d.mant * (2 : ℚ) ^ d.exp

/-- The binary64 value of `10000 + Math.random() * 90000` for a draw `r` of
`Math.random()`: the product is rounded, then the sum. -/
def codeValue (r : Double) : ℚ :=
  roundDouble (10000 + roundDouble (r.toRat * 90000))

/-- The number `Math.floor(10000 + Math.random() * 90000)` for a draw `r`. -/
def codeNumber (r : Double) : Int :=
  Int.floor (codeValue r)

/-- The source function `generateCode`, for a draw `r` of `Math.random()`. -/
def generateCode (r : Double) : String :=
  toString (codeNumber r)

/-! ## generateAiChatCompletion: the request sent upstream -/

/-- A JavaScript number, finite values taken as exact rationals. -/
inductive JsNumber where
  | finite (q : ℚ)
  | nan
  | posInf
  | negInf

/-- The function `Math.trunc` on a finite value. -/
def jsTrunc (q : ℚ) : Int :=
  if 0 ≤ q then Int.floor q else Int.ceil q

/-- An element of `data.messages`; `none` stands for a field that is not a string. -/
structure ChatEntry where
  role : Option String
  content : Option String

/-- A message as forwarded upstream. -/
structure ChatMessage where
  role : String
  content : String
deriving DecidableEq

/-- The `data` argument of `generateAiChatCompletion`. A numeric field holds the value
`Number(...)` gives for it, `none` when the field is null or undefined; `messages` is
`none` when it is not an array, `model` when it is not a string. -/
structure ChatData where
  messages : Option (List ChatEntry)
  model : Option String
  maxOutputTokens : Option JsNumber
  max_tokens : Option JsNumber
  temperature : Option JsNumber

/-- The body posted to the completion API (lines 472-477). -/
structure ChatRequest where
  model : String
  messages : List ChatMessage
  max_tokens : Int
  temperature : ℚ

/-- The expression `data?.maxOutputTokens ?? data?.max_tokens` (before the default). -/
def tokenField (data : ChatData) : Option JsNumber :=
  match data.maxOutputTokens with
  | some x => some x
  | none => data.max_tokens

/-- The constant `maxTokens` of lines 459-462. -/
def maxTokensOf (data : ChatData) : Int :=
  let rawMaxTokens := match tokenField data with
    | some x => x
    | none => .finite 800
  match rawMaxTokens with
  | .finite q => max 1 (min (jsTrunc q) 2000)
  | _ => 800

/-- The constant `temperature` of lines 464-467; the literal `0.7` is kept as the decimal
it is written as and serialised as in the request body. -/
def temperatureOf (data : ChatData) : ℚ :=
  let rawTemperature := match data.temperature with
    | some x => x
    | none => .finite (7 / 10)
  match rawTemperature with
  | .finite t => max 0 (min t 2)
  | _ => 7 / 10

/-- The callback of `rawMessages.map` (lines 437-453), from index `index` on: the first
entry with an empty role or a blank content throws. -/
def checkMessages (index : Nat) : List ChatEntry → Except HttpsError (List ChatMessage)
  | [] => .ok []
  | entry :: rest =>
    let role := match entry.role with
      | some r => jsTrim r
      | none => ""
    let content := orEmpty entry.content
    if role = "" then
      .error { code := "invalid-argument",
               message := "messages[" ++ toString index ++ "].role must be a non-empty string" }
    else if content = "" ∨ jsTrim content = "" then
      .error { code := "invalid-argument",
               message := "messages[" ++ toString index ++ "].content must be a non-empty string" }
    else
      match checkMessages (index + 1) rest with
      | .error e => .error e
      | .ok ms => .ok ({ role := role, content := content } :: ms)

/-- Lines 412-477 of `generateAiChatCompletion`: the error thrown before the upstream
call, or the request posted; `apiKey` is the result of `getOpenAiApiKey()`. -/
def chatCompletionRequest (auth : Option String) (apiKey : String) (data : ChatData) :
    Except HttpsError ChatRequest :=
  match auth with
  | none =>
    .error { code := "unauthenticated",
             message := "You must be signed in to contact the AI companion." }
  | some _ =>
    if apiKey = "" ∨ jsTrim apiKey = "" then
      .error { code := "failed-precondition",
               message := "AI companion not configured. Please ask an admin to configure the OpenAI API key in Admin Settings." }
    else
      match data.messages with
      | none =>
        .error { code := "invalid-argument", message := "Expected a non-empty messages array." }
      | some [] =>
        .error { code := "invalid-argument", message := "Expected a non-empty messages array." }
      | some (e :: es) =>
        match checkMessages 0 (e :: es) with
        | .error err => .error err
        | .ok messages =>
          let model := match data.model with
            | some m => if jsTrim m = "" then "gpt-4o-mini" else jsTrim m
            | none => "gpt-4o-mini"
          .ok { model := model
                messages := messages
                max_tokens := maxTokensOf data
                temperature := temperatureOf data }

/-! ## saveAiConversationSummary -/

/-- What the function reads of a document of the `users` collection: `therapist_id`,
and `patient_onboarding_data.share_summaries_with_therapist` when it is a boolean. -/
structure UserProfile where
  id : String
  therapist_id : Option String
  share_summaries_with_therapist : Option Bool
deriving DecidableEq

/-- An element of `data.transcript`: a value that is not an object, or an object with
its `role` and `text` (`none` for a field that is not a string). -/
inductive RawPart where
  | notObject
  | object (role text : Option String)

/-- A sanitized transcript entry. -/
structure TranscriptPart where
  role : String
  text : String
deriving DecidableEq

/-- A document of the `ai_conversation_summaries` collection. -/
structure SummaryDoc where
  id : String
  patient_id : String
  therapist_id : String
  summary : String
  created_at : Timestamp
  transcript : List TranscriptPart
  share_with_therapist : Bool
deriving DecidableEq

/-- The `data` argument of `saveAiConversationSummary`; `none` stands for a field of
another type than the one tested (string, string, array). -/
structure SummaryData where
  therapistId : Option String
  summary : Option String
  transcript : Option (List RawPart)

/-- The reply of `saveAiConversationSummary`. -/
structure SaveReply where
  id : String
deriving DecidableEq

/-- The transcript sanitizing of lines 379-385. -/
def sanitizeTranscript (raw : List RawPart) : List TranscriptPart :=
  (raw.filterMap (fun part =>
    match part with
    | .notObject => none
    | .object role text => some { role := orEmpty role, text := orEmpty text })).filter
    (fun p => p.text != "")

/-- The callable `saveAiConversationSummary` on the `users` collection and the
`ai_conversation_summaries` collection; `newId` is the id that `add` generates and
`server` the value of `FieldValue.serverTimestamp()`. -/
def saveAiConversationSummary (users : List UserProfile) (summaries : List SummaryDoc)
    (auth : Option String) (data : SummaryData) (newId : String) (server : Timestamp) :
    List SummaryDoc × Except HttpsError SaveReply :=
  match auth with
  | none => (summaries, .error { code := "unauthenticated", message := "Sign in required." })
  | some patientId =>
    let therapistId := match data.therapistId with
      | some t => jsTrim t
      | none => ""
    let summary := match data.summary with
      | some t => jsTrim t
      | none => ""
    let rawTranscript := match data.transcript with
      | some l => l
      | none => []
    if therapistId = "" then
      (summaries, .error { code := "invalid-argument", message := "therapistId is required" })
    else if summary = "" then
      (summaries, .error { code := "invalid-argument", message := "summary is required" })
    else
      match users.find? (fun u => u.id == patientId) with
      | none =>
        (summaries, .error { code := "failed-precondition", message := "User profile not found" })
      | some profile =>
        let linkedTherapistId := orEmpty profile.therapist_id
        if linkedTherapistId = "" ∨ linkedTherapistId ≠ therapistId then
          (summaries, .error { code := "permission-denied",
                               message := "You are not linked to this therapist." })
        else
          let sharePref := match profile.share_summaries_with_therapist with
            | some b => b
            | none => true
          (summaries ++
            [{ id := newId
               patient_id := patientId
               therapist_id := therapistId
               summary := summary
               created_at := server
               transcript := sanitizeTranscript rawTranscript
               share_with_therapist := sharePref }],
            .ok { id := newId })

/-! ## Examples used by the concrete checks -/

/-- A pending invitation of therapist T1 with code 12345, expiring at 172800000 ms. -/
def pendingDoc : InvitationDoc :=
  { id := "inv1", code := "12345", therapist_id := "T1", patient_email := "p@x.com",
    patient_first_name := "Jo", patient_last_name := some "", is_used := false,
    created_at := some { seconds := 0, nanoseconds := 0 },
    expires_at := some { seconds := 172800, nanoseconds := 0 },
    used_at := none, patient_id := none }

/-- A used invitation of therapist T1 with code 54321, redeemed by P1. -/
def usedDoc : InvitationDoc :=
  { id := "inv2", code := "54321", therapist_id := "T1", patient_email := "q@x.com",
    patient_first_name := "Al", patient_last_name := none, is_used := true,
    created_at := some { seconds := 10, nanoseconds := 0 },
    expires_at := some { seconds := 172810, nanoseconds := 0 },
    used_at := some { seconds := 500, nanoseconds := 0 }, patient_id := some "P1" }

/-- A clock reading 1000 ms after the epoch. -/
def earlyClock : RedeemClock :=
  { now := 1000, stamp := 1001, server := { seconds := 1, nanoseconds := 2000000 } }

/-- A clock reading exactly the expiry instant of `pendingDoc`. -/
def boundaryClock : RedeemClock :=
  { now := 172800000, stamp := 172800000, server := { seconds := 172800, nanoseconds := 0 } }

/-- A creation request by therapist T1. -/
def newPatient : CreateData :=
  { therapistId := "T1", patientEmail := "n@x.com", patientFirstName := "Ny",
    patientLastName := none }

/-- Surroundings of a creation: the first draw 12345 is taken, the second is free. -/
def newEnv : CreateEnv :=
  { codes := ["12345", "40404"], newId := "inv9", stampNow := 5000, dateNow := 5001,
    fault := .none, cleanupFails := false, enabled := true, fromEmail := none,
    senderEmail := "no-reply@therapii.app", sendThrows := false }

/-- The record that creation stores for `newPatient` under `newEnv`. -/
def createdDoc : InvitationDoc :=
  { id := "inv9", code := "40404", therapist_id := "T1", patient_email := "n@x.com",
    patient_first_name := "Ny", patient_last_name := some "", is_used := false,
    created_at := some { seconds := 5, nanoseconds := 0 },
    expires_at := some { seconds := 172805, nanoseconds := 1000000 },
    used_at := none, patient_id := none }

/-- A store for the list operations. Of therapist U1: a1, a6 (no used_at) and a2 are
used, a7 is unused and expired early, a3 is unused with no created_at; a4 and a5 belong
to other therapists and were redeemed by U1 within the same millisecond. -/
def acceptedStore : Store :=
  [ { id := "a1", code := "10001", therapist_id := "U1", patient_email := "a@x.com",
      patient_first_name := "A", patient_last_name := none, is_used := true,
      created_at := some { seconds := 10, nanoseconds := 0 },
      expires_at := some { seconds := 172810, nanoseconds := 0 },
      used_at := some { seconds := 500, nanoseconds := 400000 }, patient_id := some "P1" },
    { id := "a6", code := "10006", therapist_id := "U1", patient_email := "f@x.com",
      patient_first_name := "F", patient_last_name := none, is_used := true,
      created_at := some { seconds := 99, nanoseconds := 0 },
      expires_at := some { seconds := 172899, nanoseconds := 0 },
      used_at := none, patient_id := some "P3" },
    { id := "a2", code := "10002", therapist_id := "U1", patient_email := "b@x.com",
      patient_first_name := "B", patient_last_name := none, is_used := true,
      created_at := some { seconds := 5, nanoseconds := 0 },
      expires_at := some { seconds := 172805, nanoseconds := 0 },
      used_at := some { seconds := 900, nanoseconds := 0 }, patient_id := some "P2" },
    { id := "a3", code := "10003", therapist_id := "U1", patient_email := "c@x.com",
      patient_first_name := "C", patient_last_name := none, is_used := false,
      created_at := none,
      expires_at := some { seconds := 172803, nanoseconds := 0 },
      used_at := none, patient_id := none },
    { id := "a4", code := "10004", therapist_id := "T9", patient_email := "u@x.com",
      patient_first_name := "U", patient_last_name := none, is_used := true,
      created_at := some { seconds := 20, nanoseconds := 0 },
      expires_at := some { seconds := 172820, nanoseconds := 0 },
      used_at := some { seconds := 700, nanoseconds := 100000 }, patient_id := some "U1" },
    { id := "a5", code := "10005", therapist_id := "T8", patient_email := "u@x.com",
      patient_first_name := "U", patient_last_name := none, is_used := true,
      created_at := some { seconds := 30, nanoseconds := 0 },
      expires_at := some { seconds := 172830, nanoseconds := 0 },
      used_at := some { seconds := 700, nanoseconds := 300000 }, patient_id := some "U1" },
    { id := "a7", code := "10007", therapist_id := "U1", patient_email := "g@x.com",
      patient_first_name := "G", patient_last_name := none, is_used := false,
      created_at := some { seconds := 50, nanoseconds := 0 },
      expires_at := some { seconds := 60, nanoseconds := 0 },
      used_at := none, patient_id := none } ]

/-- A schedule in which the second request runs its transaction first. -/
def raceSchedule : List (Bool × RedeemClock) :=
  [(false, earlyClock), (true, earlyClock), (true, earlyClock), (false, earlyClock)]

/-- Surroundings of a creation in which the send call throws. -/
def throwingEnv : CreateEnv :=
  { codes := ["12345", "40404"], newId := "inv9", stampNow := 5000, dateNow := 5000,
    fault := .none, cleanupFails := false, enabled := true, fromEmail := some "a@therapii.app",
    senderEmail := "no-reply@therapii.app", sendThrows := true }

/-- The draw 150119987579 / 2 ^ 52, whose product with 90000 lies just below 3. -/
def skewedDraw : Double :=
  { mant := 150119987579, exp := -52, mant_lt := by decide, exp_ge := by decide,
    exp_le := by decide }

/-- The draw 27325 / 2 ^ 20, for which the code is 12345. -/
def draw12345 : Double :=
  { mant := 27325, exp := -20, mant_lt := by decide, exp_ge := by decide,
    exp_le := by decide }

/-- The draw 354240 / 2 ^ 20, for which the code is 40404. -/
def draw40404 : Double :=
  { mant := 354240, exp := -20, mant_lt := by decide, exp_ge := by decide,
    exp_le := by decide }

/-- A chat request with one valid message and the given maxOutputTokens, max_tokens and
temperature fields. -/
def chatDataWith (tokens alt temp : Option JsNumber) : ChatData :=
  { messages := some [{ role := some "user", content := some "hi" }], model := none,
    maxOutputTokens := tokens, max_tokens := alt, temperature := temp }

/-- A patient profile linked to therapist T1. -/
def linkedProfile : UserProfile :=
  { id := "P1", therapist_id := some "T1", share_summaries_with_therapist := none }

/-- A request to save a summary for therapist T2. -/
def otherTherapistSummary : SummaryData :=
  { therapistId := some " T2 ", summary := some "went well", transcript := none }

/-! ## Basic facts about the helpers and the store primitives -/

theorem isJsWhiteSpace_of_isDigit (c : Char) (h : c.isDigit = true) : isJsWhiteSpace c = false := by
  have h1 : 48 ≤ c.toNat ∧ c.toNat ≤ 57 := by
    simp only [Char.isDigit, Bool.and_eq_true, decide_eq_true_eq] at h
    exact ⟨h.1, h.2⟩
  simp only [isJsWhiteSpace, Bool.or_eq_false_iff, Bool.and_eq_false_iff, beq_eq_false_iff_ne,
    decide_eq_false_iff_not]
  omega

theorem jsTrim_of_isFiveDigits (c : String) (h : isFiveDigits c = true) : jsTrim c = c := by
  obtain ⟨l⟩ := c
  simp only [isFiveDigits, Bool.and_eq_true, beq_iff_eq] at h
  obtain ⟨hlen, hall⟩ := h
  match l, hlen, hall with
  | [a, b, c, d, e], _, hall =>
    simp only [List.all_cons, List.all_nil, Bool.and_true, Bool.and_eq_true] at hall
    have ha := isJsWhiteSpace_of_isDigit a hall.1
    have he := isJsWhiteSpace_of_isDigit e hall.2.2.2.2
    simp [jsTrim, List.dropWhile, ha, he]

theorem parseCode_of_isFiveDigits (c : String) (h : isFiveDigits c = true) :
    parseCode (some c) = .ok c := by
  have hne : c ≠ "" := by
    intro h0
    subst h0
    simp [isFiveDigits] at h
  simp [parseCode, jsTrim_of_isFiveDigits c h, h, hne]

theorem mem_of_queryByCode {s : Store} {c : String} {inv : InvitationDoc} {rest : List InvitationDoc}
    (h : queryByCode s c = inv :: rest) : inv ∈ s ∧ inv.code = c := by
  have hm : inv ∈ queryByCode s c := by rw [h]; exact List.mem_cons_self _ _
  have hf : inv ∈ s.filter (fun d => d.code == c) := List.mem_of_mem_take hm
  simpa using hf

theorem queryByCode_eq_nil {s : Store} {c : String} :
    queryByCode s c = [] ↔ ∀ d ∈ s, d.code ≠ c := by
  simp [queryByCode, List.take_eq_nil_iff, List.filter_eq_nil_iff]

theorem eq_of_id_eq {s : Store} (hwf : s.WF) {a b : InvitationDoc} (ha : a ∈ s) (hb : b ∈ s)
    (h : a.id = b.id) : a = b :=
  List.inj_on_of_nodup_map hwf.1 ha hb h

theorem getDoc_of_mem {s : Store} (hwf : s.WF) {inv : InvitationDoc} (h : inv ∈ s) :
    getDoc s inv.id = some inv := by
  have hnd := hwf.1
  clear hwf
  induction s with
  | nil => simp at h
  | cons a t ih =>
    simp only [List.map_cons, List.nodup_cons, List.mem_map, not_exists, not_and] at hnd
    rcases List.mem_cons.1 h with rfl | ht
    · simp [getDoc]
    · have hne : a.id ≠ inv.id := fun hid => hnd.1 inv ht hid.symm
      have := ih ht hnd.2
      simpa [getDoc, List.find?_cons, hne] using this

theorem mem_of_getDoc {s : Store} {ref : String} {inv : InvitationDoc}
    (h : getDoc s ref = some inv) : inv ∈ s ∧ inv.id = ref := by
  unfold getDoc at h
  exact ⟨List.mem_of_find?_eq_some h, by simpa using List.find?_some h⟩

theorem updateDoc_of_mem {s : Store} (hwf : s.WF) {inv : InvitationDoc} (h : inv ∈ s)
    (f : InvitationDoc → InvitationDoc) :
    updateDoc s inv.id f = s.map (fun d => if d = inv then f inv else d) := by
  unfold updateDoc
  apply List.map_congr_left
  intro d hd
  by_cases hid : d.id = inv.id
  · have := eq_of_id_eq hwf hd h hid
    subst this
    simp
  · have : d ≠ inv := fun hEq => hid (by rw [hEq])
    simp [hid, this]

theorem deleteDoc_of_mem {s : Store} (hwf : s.WF) {inv : InvitationDoc} (h : inv ∈ s) :
    deleteDoc s inv.id = s.filter (fun d => decide (d ≠ inv)) := by
  unfold deleteDoc
  apply List.filter_congr
  intro d hd
  by_cases hid : d.id = inv.id
  · have := eq_of_id_eq hwf hd h hid
    subst this
    simp
  · have : d ≠ inv := fun hEq => hid (by rw [hEq])
    simp [hid, this]

theorem redeemLookup_of_query {s : Store} {c : String} {inv : InvitationDoc}
    {rest : List InvitationDoc} (P : String) (hc : isFiveDigits c = true)
    (hq : queryByCode s c = inv :: rest) :
    redeemLookup s (some P) (some c) = .located P inv.id := by
  simp [redeemLookup, parseCode_of_isFiveDigits c hc, hq]

theorem redeemTransaction_pending {s : Store} (hwf : s.WF) {inv : InvitationDoc} (hm : inv ∈ s)
    (P : String) (clk : RedeemClock) (hu : inv.is_used = false)
    (he : clk.now < expiresAtDate inv) :
    redeemTransaction s inv.id P clk =
      (updateDoc s inv.id (consume P clk.server), some (redeemedView inv P clk.stamp)) := by
  have hnot : ¬ (inv.is_used = true ∨ expiresAtDate inv ≤ clk.now) := by
    rw [hu]
    simp only [Bool.false_eq_true, false_or, not_le]
    exact he
  simp only [redeemTransaction, getDoc_of_mem hwf hm, if_neg hnot]

theorem redeemTransaction_invalid {s : Store} (hwf : s.WF) {inv : InvitationDoc} (hm : inv ∈ s)
    (P : String) (clk : RedeemClock) (h : inv.is_used = true ∨ expiresAtDate inv ≤ clk.now) :
    redeemTransaction s inv.id P clk = (s, none) := by
  simp only [redeemTransaction, getDoc_of_mem hwf hm, if_pos h]

theorem WF_updateDoc {s : Store} (hwf : s.WF) (ref : String) (f : InvitationDoc → InvitationDoc)
    (hf : ∀ d, (f d).id = d.id) : (updateDoc s ref f).WF := by
  have hids : (updateDoc s ref f).map (fun d => d.id) = s.map (fun d => d.id) := by
    unfold updateDoc
    rw [List.map_map]
    apply List.map_congr_left
    intro d _
    by_cases h : d.id = ref <;> simp [h, hf]
  refine ⟨by rw [hids]; exact hwf.1, ?_⟩
  intro d hd
  have hmem : d.id ∈ (updateDoc s ref f).map (fun d => d.id) := List.mem_map_of_mem _ hd
  rw [hids] at hmem
  obtain ⟨d0, hd0, hEq⟩ := List.mem_map.1 hmem
  rw [← hEq]
  exact hwf.2 d0 hd0

theorem consume_id (P : String) (t : Timestamp) (d : InvitationDoc) : (consume P t d).id = d.id :=
  rfl

theorem namesOnly_consume {s : Store} {c : String} {inv : InvitationDoc} (hwf : s.WF)
    (h : NamesOnly s c inv) (P : String) (t : Timestamp) :
    NamesOnly (updateDoc s inv.id (consume P t)) c (consume P t inv) := by
  refine ⟨?_, h.2.1, ?_⟩
  · exact List.mem_map.2 ⟨inv, h.1, by simp⟩
  · intro d hd hcode
    obtain ⟨d0, hd0, hEq⟩ := List.mem_map.1 hd
    by_cases hid : d0.id = inv.id
    · have := eq_of_id_eq hwf hd0 h.1 hid
      subst this
      simpa using hEq.symm
    · rw [if_neg hid] at hEq
      subst hEq
      exact absurd (by rw [h.2.2 d0 hd0 hcode]) hid

theorem queryByCode_of_namesOnly {s : Store} {c : String} {inv : InvitationDoc}
    (h : NamesOnly s c inv) : queryByCode s c = [inv] := by
  unfold queryByCode
  have hin : inv ∈ s.filter (fun d => d.code == c) := by
    simp [List.mem_filter, h.1, h.2.1]
  match hl : s.filter (fun d => d.code == c) with
  | [] => rw [hl] at hin; simp at hin
  | a :: t =>
    have ha : a ∈ s.filter (fun d => d.code == c) := by rw [hl]; exact List.mem_cons_self _ _
    have ha2 : a ∈ s ∧ a.code = c := by simpa [List.mem_filter] using ha
    rw [hl, h.2.2 a ha2.1 ha2.2]
    rfl

theorem advance_waiting {s : Store} {c : String} {inv : InvitationDoc} (hN : NamesOnly s c inv)
    (hc : isFiveDigits c = true) (P : String) (clk : RedeemClock) :
    RedeemRequest.advance s clk { auth := some P, raw := some c, phase := .waiting } =
      (s, { auth := some P, raw := some c, phase := .inTransaction P inv.id }) := by
  simp only [RedeemRequest.advance, redeemLookup_of_query P hc (queryByCode_of_namesOnly hN)]

theorem advance_commit {s : Store} (hwf : s.WF) {inv : InvitationDoc} (hm : inv ∈ s)
    (hu : inv.is_used = false) (auth raw : Option String) (P : String) (clk : RedeemClock)
    (he : clk.now < expiresAtDate inv) :
    RedeemRequest.advance s clk { auth := auth, raw := raw, phase := .inTransaction P inv.id } =
      (updateDoc s inv.id (consume P clk.server),
        { auth := auth, raw := raw,
          phase := .replied (.ok (some (redeemedView inv P clk.stamp))) }) := by
  simp only [RedeemRequest.advance, redeemTransaction_pending hwf hm P clk hu he]

theorem advance_reject {s : Store} (hwf : s.WF) {inv : InvitationDoc} (hm : inv ∈ s)
    (hu : inv.is_used = true) (auth raw : Option String) (P : String) (clk : RedeemClock) :
    RedeemRequest.advance s clk { auth := auth, raw := raw, phase := .inTransaction P inv.id } =
      (s, { auth := auth, raw := raw, phase := .replied (.ok none) }) := by
  simp only [RedeemRequest.advance, redeemTransaction_invalid hwf hm P clk (Or.inl hu)]

/-- A request that runs alone, its two steps in a row, is `validateAndUseInvitation`. -/
theorem advance_twice_eq (s : Store) (auth raw : Option String) (k1 k2 : RedeemClock) :
    ((RedeemRequest.advance s k1 { auth := auth, raw := raw, phase := .waiting }).2.advance
        (RedeemRequest.advance s k1 { auth := auth, raw := raw, phase := .waiting }).1 k2).1 =
      (validateAndUseInvitation s auth raw k2).1 ∧
    ((RedeemRequest.advance s k1 { auth := auth, raw := raw, phase := .waiting }).2.advance
        (RedeemRequest.advance s k1 { auth := auth, raw := raw, phase := .waiting }).1 k2).2.phase =
      .replied (validateAndUseInvitation s auth raw k2).2 := by
  unfold validateAndUseInvitation
  cases h : redeemLookup s auth raw with
  | reply r => simp [RedeemRequest.advance, h]
  | located P ref => simp [RedeemRequest.advance, h]

/-! ## Redemption of a pending and of an expired code (C2, C3) -/

/-- C2: redeeming a 5-digit code whose looked-up record is unused and not yet expired
returns a non-null invitation with isUsed = true and patientId = the caller, and the
store afterwards is the store before with exactly that record replaced by itself with
is_used = true, used_at = the server timestamp and patient_id = the caller; all its
other fields and all other records are unchanged. -/
theorem validateAndUseInvitation_pending (s : Store) (P c : String) (clk : RedeemClock)
    (inv : InvitationDoc) (hwf : s.WF) (hc : isFiveDigits c = true)
    (hq : queryByCode s c = [inv]) (hu : inv.is_used = false)
    (he : clk.now < expiresAtDate inv) :
    ∃ v : InvitationView,
      (validateAndUseInvitation s (some P) (some c) clk).2 = .ok (some v) ∧
      v.isUsed = true ∧ v.patientId = some P ∧ v.id = inv.id ∧ v.code = c ∧
      (validateAndUseInvitation s (some P) (some c) clk).1 =
        s.map (fun d => if d = inv then
          { inv with is_used := true, used_at := some clk.server, patient_id := some P }
          else d) := by
  have hm := mem_of_queryByCode hq
  have hrun : validateAndUseInvitation s (some P) (some c) clk =
      ((redeemTransaction s inv.id P clk).1, .ok (redeemTransaction s inv.id P clk).2) := by
    simp only [validateAndUseInvitation, redeemLookup_of_query P hc hq]
  rw [hrun, redeemTransaction_pending hwf hm.1 P clk hu he, updateDoc_of_mem hwf hm.1]
  exact ⟨_, rfl, rfl, rfl, rfl, hm.2, rfl⟩

theorem validateAndUseInvitation_pending_witness :
    Store.WF [pendingDoc, usedDoc] ∧ queryByCode [pendingDoc, usedDoc] "12345" = [pendingDoc] ∧
    ∃ v : InvitationView,
      (validateAndUseInvitation [pendingDoc, usedDoc] (some "P1") (some "12345") earlyClock).2
        = .ok (some v) ∧
      v.isUsed = true ∧ v.patientId = some "P1" ∧ v.id = pendingDoc.id ∧ v.code = "12345" ∧
      (validateAndUseInvitation [pendingDoc, usedDoc] (some "P1") (some "12345") earlyClock).1 =
        [pendingDoc, usedDoc].map (fun d => if d = pendingDoc then
          { pendingDoc with is_used := true, used_at := some earlyClock.server,
                            patient_id := some "P1" }
          else d) :=
  ⟨by decide, by decide,
    validateAndUseInvitation_pending [pendingDoc, usedDoc] "P1" "12345" earlyClock pendingDoc
      (by decide) (by decide) (by decide) (by decide) (by decide)⟩

/-- C3: redeeming a 5-digit code whose looked-up record is unused but expired
(expiry instant at or before the clock reading, the boundary included) returns the
null invitation without an error and leaves the store unchanged, so the record is
still stored as it was. -/
theorem validateAndUseInvitation_expired (s : Store) (P c : String) (clk : RedeemClock)
    (inv : InvitationDoc) (hwf : s.WF) (hc : isFiveDigits c = true)
    (hq : queryByCode s c = [inv]) (hu : inv.is_used = false)
    (he : expiresAtDate inv ≤ clk.now) :
    validateAndUseInvitation s (some P) (some c) clk = (s, .ok none) ∧
    getDoc (validateAndUseInvitation s (some P) (some c) clk).1 inv.id = some inv ∧
    inv.is_used = false := by
  have hm := mem_of_queryByCode hq
  have hrun : validateAndUseInvitation s (some P) (some c) clk =
      ((redeemTransaction s inv.id P clk).1, .ok (redeemTransaction s inv.id P clk).2) := by
    simp only [validateAndUseInvitation, redeemLookup_of_query P hc hq]
  rw [hrun, redeemTransaction_invalid hwf hm.1 P clk (Or.inr he)]
  exact ⟨rfl, getDoc_of_mem hwf hm.1, hu⟩

theorem validateAndUseInvitation_expired_witness :
    expiresAtDate pendingDoc = boundaryClock.now ∧
    validateAndUseInvitation [pendingDoc, usedDoc] (some "P2") (some "12345") boundaryClock
      = ([pendingDoc, usedDoc], .ok none) ∧
    getDoc (validateAndUseInvitation [pendingDoc, usedDoc] (some "P2") (some "12345")
      boundaryClock).1 pendingDoc.id = some pendingDoc ∧
    pendingDoc.is_used = false :=
  ⟨by decide,
    validateAndUseInvitation_expired [pendingDoc, usedDoc] "P2" "12345" boundaryClock pendingDoc
      (by decide) (by decide) (by decide) (by decide) (by decide)⟩

/-! ## Two concurrent redemptions of one code (C1) -/

/-- C1: with the lookup query and the transaction of a redemption taken as atomic steps,
for every store in which the 5-digit code c names exactly one record and that record is
unused, for every two callers P1 and P2 and every interleaving of the two steps of each
request, all steps run before the expiry instant, exactly one request replies with a
non-null invitation and the other with the null invitation, and afterwards the record
is stored with is_used = true and patient_id = the caller whose request succeeded. -/
theorem concurrent_redeem_exactly_one (s : Store) (c P1 P2 : String) (inv : InvitationDoc)
    (sched : List (Bool × RedeemClock)) (hwf : s.WF) (hc : isFiveDigits c = true)
    (hN : NamesOnly s c inv) (hu : inv.is_used = false)
    (hsched : (sched.map Prod.fst).Perm [false, false, true, true])
    (htime : ∀ e ∈ sched, e.2.now < expiresAtDate inv) :
    ((∃ v, (raceOutcome s c P1 P2 sched).2.1.phase = .replied (.ok (some v)) ∧
        (raceOutcome s c P1 P2 sched).2.2.phase = .replied (.ok none) ∧
        ∃ d, getDoc (raceOutcome s c P1 P2 sched).1 inv.id = some d ∧
          d.is_used = true ∧ d.patient_id = some P1) ∨
     (∃ v, (raceOutcome s c P1 P2 sched).2.1.phase = .replied (.ok none) ∧
        (raceOutcome s c P1 P2 sched).2.2.phase = .replied (.ok (some v)) ∧
        ∃ d, getDoc (raceOutcome s c P1 P2 sched).1 inv.id = some d ∧
          d.is_used = true ∧ d.patient_id = some P2)) := by
  have hlen : sched.length = 4 := by
    have := hsched.length_eq
    simpa using this
  match sched, hlen with
  | [(b1, k1), (b2, k2), (b3, k3), (b4, k4)], _ =>
    simp only [List.mem_cons, List.mem_singleton, forall_eq_or_imp, forall_eq,
      List.not_mem_nil, IsEmpty.forall_iff, implies_true, and_true] at htime
    obtain ⟨t1, t2, t3, t4⟩ := htime
    have hW : ∀ (s0 : Store) (d0 : InvitationDoc), NamesOnly s0 c d0 → ∀ P k,
        RedeemRequest.advance s0 k { auth := some P, raw := some c, phase := .waiting } =
          (s0, { auth := some P, raw := some c, phase := .inTransaction P d0.id }) :=
      fun _ _ h P k => advance_waiting h hc P k
    have hW0 := hW s inv hN
    have hW1 : ∀ Q t P k, RedeemRequest.advance (updateDoc s inv.id (consume Q t)) k
          { auth := some P, raw := some c, phase := .waiting } =
          (updateDoc s inv.id (consume Q t),
            { auth := some P, raw := some c, phase := .inTransaction P inv.id }) :=
      fun Q t => hW _ (consume Q t inv) (namesOnly_consume hwf hN Q t)
    have hC := advance_commit hwf hN.1 hu
    have hR : ∀ Q t auth raw P k, RedeemRequest.advance (updateDoc s inv.id (consume Q t)) k
          { auth := auth, raw := raw, phase := .inTransaction P inv.id } =
          (updateDoc s inv.id (consume Q t),
            { auth := auth, raw := raw, phase := .replied (.ok none) }) :=
      fun Q t => @advance_reject _ (WF_updateDoc hwf _ _ (consume_id Q t)) (consume Q t inv)
        (namesOnly_consume hwf hN Q t).1 rfl
    have hG : ∀ Q t, getDoc (updateDoc s inv.id (consume Q t)) inv.id = some (consume Q t inv) :=
      fun Q t => @getDoc_of_mem _ (WF_updateDoc hwf _ _ (consume_id Q t)) (consume Q t inv)
        (namesOnly_consume hwf hN Q t).1
    simp only [List.map_cons, List.map_nil] at hsched
    cases b1 <;> cases b2 <;> cases b3 <;> cases b4 <;>
      first
      | (exfalso; revert hsched; decide)
      | (simp only [raceOutcome, runSchedule, hW0, hW1, hC, hR, hG, t1, t2, t3, t4]
         simp [consume])

theorem concurrent_redeem_exactly_one_witness :
    NamesOnly [pendingDoc, usedDoc] "12345" pendingDoc ∧
    ((∃ v, (raceOutcome [pendingDoc, usedDoc] "12345" "P1" "P2" raceSchedule).2.1.phase
          = .replied (.ok (some v)) ∧
        (raceOutcome [pendingDoc, usedDoc] "12345" "P1" "P2" raceSchedule).2.2.phase
          = .replied (.ok none) ∧
        ∃ d, getDoc (raceOutcome [pendingDoc, usedDoc] "12345" "P1" "P2" raceSchedule).1
            pendingDoc.id = some d ∧ d.is_used = true ∧ d.patient_id = some "P1") ∨
     (∃ v, (raceOutcome [pendingDoc, usedDoc] "12345" "P1" "P2" raceSchedule).2.1.phase
          = .replied (.ok none) ∧
        (raceOutcome [pendingDoc, usedDoc] "12345" "P1" "P2" raceSchedule).2.2.phase
          = .replied (.ok (some v)) ∧
        ∃ d, getDoc (raceOutcome [pendingDoc, usedDoc] "12345" "P1" "P2" raceSchedule).1
            pendingDoc.id = some d ∧ d.is_used = true ∧ d.patient_id = some "P2")) :=
  ⟨⟨by decide, by decide, by decide⟩,
    concurrent_redeem_exactly_one [pendingDoc, usedDoc] "12345" "P1" "P2" pendingDoc raceSchedule
      (by decide) (by decide) ⟨by decide, by decide, by decide⟩ (by decide) (by decide)
      (by decide)⟩

/-! ## deleteInvitation (C5, C6) -/

/-- C5, as stated, fails: a caller who does not own a used invitation gets
permission-denied, not failed-precondition, because ownership is checked first. -/
theorem deleteInvitation_used_other_caller :
    getDoc [pendingDoc, usedDoc] "inv2" = some usedDoc ∧ usedDoc.is_used = true ∧
    (deleteInvitation [pendingDoc, usedDoc] (some "T2") (some "inv2")).2 =
      .error { code := "permission-denied", message := "Cannot delete this invitation" } ∧
    ¬ ∃ m, (deleteInvitation [pendingDoc, usedDoc] (some "T2") (some "inv2")).2 =
      .error { code := "failed-precondition", message := m } := by
  refine ⟨by decide, by decide, by decide, ?_⟩
  rintro ⟨m, hm⟩
  have h : (deleteInvitation [pendingDoc, usedDoc] (some "T2") (some "inv2")).2 =
      .error { code := "permission-denied", message := "Cannot delete this invitation" } := by
    decide
  rw [h] at hm
  injection hm with hm
  injection hm with hcode _
  exact absurd hcode (by decide)

/-- C5 (amended): for every authenticated caller and every invitationId naming an existing
record with is_used = true, deleteInvitation raises an error and leaves the store
unchanged; the error code is failed-precondition when the caller owns the record
(therapist_id = caller) and permission-denied when the caller does not. -/
theorem deleteInvitation_used (s : Store) (T invitationId : String) (inv : InvitationDoc)
    (hwf : s.WF) (hget : getDoc s invitationId = some inv) (hu : inv.is_used = true) :
    (deleteInvitation s (some T) (some invitationId)).1 = s ∧
    (inv.therapist_id = T →
      (deleteInvitation s (some T) (some invitationId)).2 =
        .error { code := "failed-precondition", message := "Invitation already used" }) ∧
    (inv.therapist_id ≠ T →
      (deleteInvitation s (some T) (some invitationId)).2 =
        .error { code := "permission-denied", message := "Cannot delete this invitation" }) := by
  have hm := mem_of_getDoc hget
  have hne : invitationId ≠ "" := by
    rw [← hm.2]
    exact hwf.2 inv hm.1
  refine ⟨?_, ?_, ?_⟩
  · by_cases hT : inv.therapist_id = T
    · simp [deleteInvitation, orEmpty, hne, hget, hT, hu]
    · simp [deleteInvitation, orEmpty, hne, hget, hT]
  · intro hT
    simp [deleteInvitation, orEmpty, hne, hget, hT, hu]
  · intro hT
    simp [deleteInvitation, orEmpty, hne, hget, hT]

theorem deleteInvitation_used_witness :
    getDoc [pendingDoc, usedDoc] "inv2" = some usedDoc ∧ usedDoc.therapist_id = "T1" ∧
    (deleteInvitation [pendingDoc, usedDoc] (some "T1") (some "inv2")).1
      = [pendingDoc, usedDoc] ∧
    (usedDoc.therapist_id = "T1" →
      (deleteInvitation [pendingDoc, usedDoc] (some "T1") (some "inv2")).2 =
        .error { code := "failed-precondition", message := "Invitation already used" }) ∧
    (usedDoc.therapist_id ≠ "T1" →
      (deleteInvitation [pendingDoc, usedDoc] (some "T1") (some "inv2")).2 =
        .error { code := "permission-denied", message := "Cannot delete this invitation" }) :=
  ⟨by decide, by decide,
    deleteInvitation_used [pendingDoc, usedDoc] "T1" "inv2" usedDoc (by decide) (by decide)
      (by decide)⟩

theorem mem_jsSort {α : Type} (cmp : α → α → Int) (l : List α) (v : α) :
    v ∈ jsSort cmp l ↔ v ∈ l :=
  (List.perm_insertionSort _ l).mem_iff

theorem resolveIdentity_cases (arg : Option String) (U : String) :
    (resolveIdentity arg U = U ∧ (arg = none ∨ arg = some "" ∨ arg = some U)) ∨
    (resolveIdentity arg U ≠ U ∧ ∃ a, arg = some a ∧ a ≠ "" ∧ a ≠ U) := by
  cases arg with
  | none => left; simp [resolveIdentity, orNull]
  | some a =>
    by_cases h0 : a = ""
    · left; simp [resolveIdentity, orNull, h0]
    · by_cases hU : a = U
      · left
        subst hU
        simp [resolveIdentity, orNull, h0]
      · right; simp [resolveIdentity, orNull, h0, hU]

/-- C6: for every authenticated caller T and every invitationId naming an existing record
owned by T with is_used = false, deleteInvitation returns success = true and the store
afterwards is the store before without exactly that record (all other records unchanged,
in the same order); a following getTherapistInvitations by T (it returns a list when
called without argument) never returns a list with an invitation of that id. -/
theorem deleteInvitation_unused_owner (s : Store) (T invitationId : String)
    (inv : InvitationDoc) (hwf : s.WF) (hget : getDoc s invitationId = some inv)
    (hown : inv.therapist_id = T) (hu : inv.is_used = false) :
    deleteInvitation s (some T) (some invitationId) =
      (s.filter (fun d => decide (d ≠ inv)), .ok { success := true }) ∧
    (∃ l, getTherapistInvitations (deleteInvitation s (some T) (some invitationId)).1
        (some T) none = .ok l) ∧
    ∀ arg l, getTherapistInvitations (deleteInvitation s (some T) (some invitationId)).1
        (some T) arg = .ok l → ∀ v ∈ l, v.id ≠ invitationId := by
  have hm := mem_of_getDoc hget
  have hne : invitationId ≠ "" := by
    rw [← hm.2]
    exact hwf.2 inv hm.1
  have hdel : deleteInvitation s (some T) (some invitationId) =
      (s.filter (fun d => decide (d ≠ inv)), .ok { success := true }) := by
    have h1 : deleteInvitation s (some T) (some invitationId) =
        (deleteDoc s invitationId, .ok { success := true }) := by
      simp [deleteInvitation, orEmpty, hne, hget, hown, hu]
    rw [h1, ← hm.2, deleteDoc_of_mem hwf hm.1]
  rw [hdel]
  refine ⟨rfl, ?_, ?_⟩
  · simp [getTherapistInvitations, resolveIdentity, orNull]
  · intro arg l hl v hv
    rcases resolveIdentity_cases arg T with ⟨hr, _⟩ | ⟨hr, _⟩
    · simp only [getTherapistInvitations, hr, ne_eq, not_true_eq_false, if_false,
        Except.ok.injEq] at hl
      subst hl
      rw [mem_jsSort] at hv
      obtain ⟨d, hd, rfl⟩ := List.mem_map.1 hv
      have hd2 := (List.mem_filter.1 (List.mem_filter.1 hd).1)
      have hdne : d ≠ inv := by simpa using hd2.2
      intro hid
      exact hdne (eq_of_id_eq hwf hd2.1 hm.1 (by rw [hm.2]; exact hid))
    · simp [getTherapistInvitations, hr] at hl

theorem deleteInvitation_unused_owner_witness :
    getDoc [pendingDoc, usedDoc] "inv1" = some pendingDoc ∧
    deleteInvitation [pendingDoc, usedDoc] (some "T1") (some "inv1") =
      ([pendingDoc, usedDoc].filter (fun d => decide (d ≠ pendingDoc)),
        .ok { success := true }) ∧
    (∃ l, getTherapistInvitations
        (deleteInvitation [pendingDoc, usedDoc] (some "T1") (some "inv1")).1
        (some "T1") none = .ok l) ∧
    ∀ arg l, getTherapistInvitations
        (deleteInvitation [pendingDoc, usedDoc] (some "T1") (some "inv1")).1
        (some "T1") arg = .ok l → ∀ v ∈ l, v.id ≠ "inv1" :=
  ⟨by decide,
    deleteInvitation_unused_owner [pendingDoc, usedDoc] "T1" "inv1" pendingDoc (by decide)
      (by decide) (by decide) (by decide)⟩

/-! ## previewInvitationByCode (C7) -/

/-- C7: for every store, time and 5-digit code c, previewInvitationByCode (which never
looks at the caller) returns the null invitation when no record has code c and when the
looked-up record is used or expired (expiry instant at or before now), and otherwise
returns the id, code, therapistId, patient contact fields, createdAt and expiresAt of
the record with isUsed = false, in an object that has no usedAt and no patientId field;
the store after the call is the store before. -/
theorem previewInvitationByCode_spec (s : Store) (c : String) (now : Int)
    (hc : isFiveDigits c = true) :
    ((∀ d ∈ s, d.code ≠ c) → previewInvitationByCode s (some c) now = .ok none) ∧
    (∀ inv, queryByCode s c = [inv] → (inv.is_used = true ∨ expiresAtDate inv ≤ now) →
      previewInvitationByCode s (some c) now = .ok none) ∧
    (∀ inv, queryByCode s c = [inv] → inv.is_used = false → now < expiresAtDate inv →
      previewInvitationByCode s (some c) now = .ok (some
        { id := inv.id
          code := inv.code
          therapistId := inv.therapist_id
          patientEmail := inv.patient_email
          patientFirstName := inv.patient_first_name
          patientLastName := orEmpty inv.patient_last_name
          isUsed := false
          createdAt := createdAtDate inv
          expiresAt := expiresAtDate inv })) ∧
    step s (.preview (some c) now) = some s := by
  refine ⟨?_, ?_, ?_, rfl⟩
  · intro h
    simp [previewInvitationByCode, parseCode_of_isFiveDigits c hc, queryByCode_eq_nil.2 h]
  · intro inv hq h
    simp only [previewInvitationByCode, parseCode_of_isFiveDigits c hc, hq, if_pos h]
  · intro inv hq hu he
    have hnot : ¬ (inv.is_used = true ∨ expiresAtDate inv ≤ now) := by
      rw [hu]
      simp only [Bool.false_eq_true, false_or, not_le]
      exact he
    simp only [previewInvitationByCode, parseCode_of_isFiveDigits c hc, hq, if_neg hnot]

theorem previewInvitationByCode_spec_witness :
    queryByCode [pendingDoc, usedDoc] "12345" = [pendingDoc] ∧
    ((∀ d ∈ [pendingDoc, usedDoc], d.code ≠ "12345") →
      previewInvitationByCode [pendingDoc, usedDoc] (some "12345") 1000 = .ok none) ∧
    (∀ inv, queryByCode [pendingDoc, usedDoc] "12345" = [inv] →
      (inv.is_used = true ∨ expiresAtDate inv ≤ 1000) →
      previewInvitationByCode [pendingDoc, usedDoc] (some "12345") 1000 = .ok none) ∧
    (∀ inv, queryByCode [pendingDoc, usedDoc] "12345" = [inv] → inv.is_used = false →
      1000 < expiresAtDate inv →
      previewInvitationByCode [pendingDoc, usedDoc] (some "12345") 1000 = .ok (some
        { id := inv.id
          code := inv.code
          therapistId := inv.therapist_id
          patientEmail := inv.patient_email
          patientFirstName := inv.patient_first_name
          patientLastName := orEmpty inv.patient_last_name
          isUsed := false
          createdAt := createdAtDate inv
          expiresAt := expiresAtDate inv })) ∧
    step [pendingDoc, usedDoc] (.preview (some "12345") 1000) = some [pendingDoc, usedDoc] :=
  ⟨by decide, previewInvitationByCode_spec [pendingDoc, usedDoc] "12345" 1000 (by decide)⟩

/-! ## getTherapistInvitations never crosses tenants (C8) -/

/-- C8: for every store, every authenticated caller U and every value of the therapistId
argument, getTherapistInvitations either raises permission-denied or returns a list in
which every invitation has therapistId = U; it returns a list when the argument is
absent, empty or equal to U, and raises permission-denied, returning no records, when
the argument is a non-empty value different from U. -/
theorem getTherapistInvitations_own_only (s : Store) (U : String) (arg : Option String) :
    ((getTherapistInvitations s (some U) arg = .error
        { code := "permission-denied", message := "You can only view your own invitations." }) ∨
      (∃ l, getTherapistInvitations s (some U) arg = .ok l ∧ ∀ v ∈ l, v.therapistId = U)) ∧
    ((arg = none ∨ arg = some "" ∨ arg = some U) →
      ∃ l, getTherapistInvitations s (some U) arg = .ok l) ∧
    (∀ a, arg = some a → a ≠ "" → a ≠ U →
      getTherapistInvitations s (some U) arg = .error
        { code := "permission-denied", message := "You can only view your own invitations." }) := by
  rcases resolveIdentity_cases arg U with ⟨hr, hcase⟩ | ⟨hr, a, ha, ha0, haU⟩
  · have hok : getTherapistInvitations s (some U) arg = .ok (jsSort createdDesc
        ((s.filter (fun d => d.therapist_id == U)).map toView)) := by
      simp [getTherapistInvitations, hr]
    refine ⟨Or.inr ⟨_, hok, ?_⟩, fun _ => ⟨_, hok⟩, ?_⟩
    · intro v hv
      rw [mem_jsSort] at hv
      obtain ⟨d, hd, rfl⟩ := List.mem_map.1 hv
      simpa [toView] using (List.mem_filter.1 hd).2
    · intro b hb hb0 hbU
      exfalso
      rcases hcase with h | h | h <;> rw [h] at hb
      · cases hb
      · exact hb0 (Option.some.inj hb).symm
      · exact hbU (Option.some.inj hb).symm
  · have herr : getTherapistInvitations s (some U) arg = .error
        { code := "permission-denied", message := "You can only view your own invitations." } := by
      simp [getTherapistInvitations, hr]
    refine ⟨Or.inl herr, ?_, fun _ _ _ _ => herr⟩
    intro hcase
    exfalso
    rcases hcase with h | h | h <;> rw [h] at ha
    · cases ha
    · exact ha0 (Option.some.inj ha).symm
    · exact haU (Option.some.inj ha).symm

/-! ## The list operations: exact contents and order (C9, C10) -/

theorem jsSort_perm {α : Type} (cmp : α → α → Int) (l : List α) : (jsSort cmp l).Perm l :=
  List.perm_insertionSort _ l

theorem jsSort_pairwise {α : Type} (cmp : α → α → Int)
    (htot : ∀ a b, cmp a b ≤ 0 ∨ cmp b a ≤ 0)
    (htrans : ∀ a b c, cmp a b ≤ 0 → cmp b c ≤ 0 → cmp a c ≤ 0) (l : List α) :
    (jsSort cmp l).Pairwise (fun a b => cmp a b ≤ 0) := by
  haveI : IsTotal α (fun a b => cmp a b ≤ 0) := ⟨htot⟩
  haveI : IsTrans α (fun a b => cmp a b ≤ 0) := ⟨htrans⟩
  exact List.sorted_insertionSort (fun a b => cmp a b ≤ 0) l

theorem createdDesc_le_iff (a b : InvitationView) :
    createdDesc a b ≤ 0 ↔ a.createdAt ≥ b.createdAt := by
  unfold createdDesc
  omega

theorem usedThenCreatedDesc_le_iff (a b : InvitationView) :
    usedThenCreatedDesc a b ≤ 0 ↔
      (usedAtMillis a > usedAtMillis b ∨
        (usedAtMillis a = usedAtMillis b ∧ a.createdAt ≥ b.createdAt)) := by
  have hdef : usedThenCreatedDesc a b =
      if usedAtMillis b ≠ usedAtMillis a then usedAtMillis b - usedAtMillis a
      else b.createdAt - a.createdAt := rfl
  rw [hdef]
  by_cases h : usedAtMillis b = usedAtMillis a
  · rw [if_neg (by simpa using h)]
    constructor
    · intro hle
      exact Or.inr ⟨h.symm, by omega⟩
    · rintro (hgt | ⟨_, hge⟩)
      · omega
      · omega
  · rw [if_pos h]
    constructor
    · intro hle
      exact Or.inl (by omega)
    · rintro (hgt | ⟨heq, _⟩)
      · omega
      · exact absurd heq.symm h

theorem jsSort_createdDesc_chain (l : List InvitationView) :
    (jsSort createdDesc l).Chain' (fun a b => a.createdAt ≥ b.createdAt) := by
  have h := jsSort_pairwise createdDesc
    (fun a b => by simp only [createdDesc_le_iff]; omega)
    (fun a b c => by simp only [createdDesc_le_iff]; omega) l
  exact (h.imp (fun {a b} hab => (createdDesc_le_iff a b).1 hab)).chain'

theorem jsSort_usedThenCreatedDesc_chain (l : List InvitationView) :
    (jsSort usedThenCreatedDesc l).Chain' (fun a b =>
      usedAtMillis a > usedAtMillis b ∨
        (usedAtMillis a = usedAtMillis b ∧ a.createdAt ≥ b.createdAt)) := by
  have h := jsSort_pairwise usedThenCreatedDesc
    (fun a b => by simp only [usedThenCreatedDesc_le_iff]; omega)
    (fun a b c => by simp only [usedThenCreatedDesc_le_iff]; omega) l
  exact (h.imp (fun {a b} hab => (usedThenCreatedDesc_le_iff a b).1 hab)).chain'

theorem resolveIdentity_own {arg : Option String} {U : String}
    (harg : arg = none ∨ arg = some "" ∨ arg = some U) : resolveIdentity arg U = U := by
  rcases resolveIdentity_cases arg U with ⟨hr, _⟩ | ⟨_, a, ha, ha0, haU⟩
  · exact hr
  · exfalso
    rcases harg with h | h | h <;> rw [h] at ha
    · cases ha
    · exact ha0 (Option.some.inj ha).symm
    · exact haU (Option.some.inj ha).symm

theorem usedAtMillis_eq (a : InvitationView) : usedAtMillis a = a.usedAt.getD 0 := by
  unfold usedAtMillis
  cases a.usedAt <;> rfl

theorem jsSort_usedThenCreatedDesc_fields (l : List InvitationView) :
    (jsSort usedThenCreatedDesc l).Chain' (fun a b =>
      a.usedAt.getD 0 > b.usedAt.getD 0 ∨
        (a.usedAt.getD 0 = b.usedAt.getD 0 ∧ a.createdAt ≥ b.createdAt)) := by
  have h := jsSort_usedThenCreatedDesc_chain l
  simp only [usedAtMillis_eq] at h
  exact h

theorem toView_fields (d : InvitationDoc) :
    (toView d).id = d.id ∧ (toView d).therapistId = d.therapist_id ∧
    (toView d).isUsed = d.is_used ∧
    (toView d).usedAt = d.used_at.map Timestamp.toDate ∧
    (toView d).createdAt = (d.created_at.map Timestamp.toDate).getD 0 := by
  refine ⟨rfl, rfl, rfl, rfl, ?_⟩
  unfold toView createdAtDate
  cases d.created_at <;> rfl

/-- C9: for every store and authenticated caller U (therapistId / patientId argument
absent, empty or U), getAcceptedInvitationsForTherapist returns exactly the records with
therapist_id = U and is_used = true, and getAcceptedInvitationsForPatient exactly the
records with patient_id = U and is_used = true. Every result carries the id of its
record, isUsed = true, usedAt = the record's used_at and createdAt = the record's
created_at, both converted to milliseconds (createdAt 0 when created_at is missing). In
each list, for every two adjacent results a before b, usedAt(a) > usedAt(b), or
usedAt(a) = usedAt(b) and createdAt(a) >= createdAt(b), where the usedAt and createdAt
are the fields of the results and a missing usedAt counts as 0. -/
theorem accepted_lists_exact_sorted (s : Store) (U : String) (arg : Option String)
    (harg : arg = none ∨ arg = some "" ∨ arg = some U) :
    (∃ l, getAcceptedInvitationsForTherapist s (some U) arg = .ok l ∧
      l.Perm ((s.filter (fun d => d.therapist_id == U && d.is_used == true)).map toView) ∧
      (∀ v ∈ l, ∃ d ∈ s, d.therapist_id = U ∧ d.is_used = true ∧ v.id = d.id ∧
        v.therapistId = U ∧ v.isUsed = true ∧
        v.usedAt = d.used_at.map Timestamp.toDate ∧
        v.createdAt = (d.created_at.map Timestamp.toDate).getD 0) ∧
      (∀ d ∈ s, d.therapist_id = U → d.is_used = true → ∃ v ∈ l, v.id = d.id) ∧
      l.Chain' (fun a b => a.usedAt.getD 0 > b.usedAt.getD 0 ∨
        (a.usedAt.getD 0 = b.usedAt.getD 0 ∧ a.createdAt ≥ b.createdAt))) ∧
    (∃ l, getAcceptedInvitationsForPatient s (some U) arg = .ok l ∧
      l.Perm ((s.filter (fun d => d.patient_id == some U && d.is_used == true)).map toView) ∧
      (∀ v ∈ l, ∃ d ∈ s, d.patient_id = some U ∧ d.is_used = true ∧ v.id = d.id ∧
        v.isUsed = true ∧
        v.usedAt = d.used_at.map Timestamp.toDate ∧
        v.createdAt = (d.created_at.map Timestamp.toDate).getD 0) ∧
      (∀ d ∈ s, d.patient_id = some U → d.is_used = true → ∃ v ∈ l, v.id = d.id) ∧
      l.Chain' (fun a b => a.usedAt.getD 0 > b.usedAt.getD 0 ∨
        (a.usedAt.getD 0 = b.usedAt.getD 0 ∧ a.createdAt ≥ b.createdAt))) := by
  have hr := resolveIdentity_own harg
  constructor
  · refine ⟨_, ?_, jsSort_perm _ _, ?_, ?_, jsSort_usedThenCreatedDesc_fields _⟩
    · simp [getAcceptedInvitationsForTherapist, hr]
    · intro v hv
      rw [mem_jsSort] at hv
      obtain ⟨d, hd, rfl⟩ := List.mem_map.1 hv
      obtain ⟨hds, hcond⟩ := List.mem_filter.1 hd
      have hc : d.therapist_id = U ∧ d.is_used = true := by simpa using hcond
      have hf := toView_fields d
      exact ⟨d, hds, hc.1, hc.2, hf.1, hf.2.1.trans hc.1, hf.2.2.1.trans hc.2, hf.2.2.2.1,
        hf.2.2.2.2⟩
    · intro d hd h1 h2
      refine ⟨toView d, ?_, rfl⟩
      rw [mem_jsSort]
      exact List.mem_map.2 ⟨d, List.mem_filter.2 ⟨hd, by simp [h1, h2]⟩, rfl⟩
  · refine ⟨_, ?_, jsSort_perm _ _, ?_, ?_, jsSort_usedThenCreatedDesc_fields _⟩
    · simp [getAcceptedInvitationsForPatient, hr]
    · intro v hv
      rw [mem_jsSort] at hv
      obtain ⟨d, hd, rfl⟩ := List.mem_map.1 hv
      obtain ⟨hds, hcond⟩ := List.mem_filter.1 hd
      have hc : d.patient_id = some U ∧ d.is_used = true := by simpa using hcond
      have hf := toView_fields d
      exact ⟨d, hds, hc.1, hc.2, hf.1, hf.2.2.1.trans hc.2, hf.2.2.2.1, hf.2.2.2.2⟩
    · intro d hd h1 h2
      refine ⟨toView d, ?_, rfl⟩
      rw [mem_jsSort]
      exact List.mem_map.2 ⟨d, List.mem_filter.2 ⟨hd, by simp [h1, h2]⟩, rfl⟩

theorem accepted_lists_exact_sorted_witness :
    (getAcceptedInvitationsForTherapist acceptedStore (some "U1") none).toOption.map
        (List.map (fun v => (v.id, v.usedAt, v.createdAt))) =
      some [("a2", some 900000, 5000), ("a1", some 500000, 10000), ("a6", none, 99000)] ∧
    (getAcceptedInvitationsForPatient acceptedStore (some "U1") (some "U1")).toOption.map
        (List.map (fun v => (v.id, v.usedAt, v.createdAt))) =
      some [("a5", some 700000, 30000), ("a4", some 700000, 20000)] ∧
    (∃ l, getAcceptedInvitationsForTherapist acceptedStore (some "U1") none = .ok l ∧
      l.Perm ((acceptedStore.filter
        (fun d => d.therapist_id == "U1" && d.is_used == true)).map toView) ∧
      (∀ v ∈ l, ∃ d ∈ acceptedStore, d.therapist_id = "U1" ∧ d.is_used = true ∧ v.id = d.id ∧
        v.therapistId = "U1" ∧ v.isUsed = true ∧
        v.usedAt = d.used_at.map Timestamp.toDate ∧
        v.createdAt = (d.created_at.map Timestamp.toDate).getD 0) ∧
      (∀ d ∈ acceptedStore, d.therapist_id = "U1" → d.is_used = true → ∃ v ∈ l, v.id = d.id) ∧
      l.Chain' (fun a b => a.usedAt.getD 0 > b.usedAt.getD 0 ∨
        (a.usedAt.getD 0 = b.usedAt.getD 0 ∧ a.createdAt ≥ b.createdAt))) ∧
    (∃ l, getAcceptedInvitationsForPatient acceptedStore (some "U1") none = .ok l ∧
      l.Perm ((acceptedStore.filter
        (fun d => d.patient_id == some "U1" && d.is_used == true)).map toView) ∧
      (∀ v ∈ l, ∃ d ∈ acceptedStore, d.patient_id = some "U1" ∧ d.is_used = true ∧
        v.id = d.id ∧ v.isUsed = true ∧
        v.usedAt = d.used_at.map Timestamp.toDate ∧
        v.createdAt = (d.created_at.map Timestamp.toDate).getD 0) ∧
      (∀ d ∈ acceptedStore, d.patient_id = some "U1" → d.is_used = true →
        ∃ v ∈ l, v.id = d.id) ∧
      l.Chain' (fun a b => a.usedAt.getD 0 > b.usedAt.getD 0 ∨
        (a.usedAt.getD 0 = b.usedAt.getD 0 ∧ a.createdAt ≥ b.createdAt))) :=
  ⟨by decide, by decide,
    accepted_lists_exact_sorted acceptedStore "U1" none (Or.inl rfl)⟩

/-- C10: for every store and authenticated caller U (therapistId argument absent, empty
or U), getTherapistInvitations returns exactly the records with therapist_id = U,
whatever their state, each exactly once (the returned ids are distinct when the stored
ids are). Every result carries the id and the is_used of its record and createdAt = the
record's created_at converted to milliseconds, 0 when created_at is missing. For every
two adjacent results a before b, createdAt(a) >= createdAt(b). -/
theorem getTherapistInvitations_all_sorted (s : Store) (U : String) (arg : Option String)
    (harg : arg = none ∨ arg = some "" ∨ arg = some U) :
    ∃ l, getTherapistInvitations s (some U) arg = .ok l ∧
      l.Perm ((s.filter (fun d => d.therapist_id == U)).map toView) ∧
      (∀ v ∈ l, ∃ d ∈ s, d.therapist_id = U ∧ v.id = d.id ∧ v.therapistId = U ∧
        v.isUsed = d.is_used ∧
        v.createdAt = (d.created_at.map Timestamp.toDate).getD 0) ∧
      (∀ d ∈ s, d.therapist_id = U → ∃ v ∈ l, v.id = d.id ∧ v.isUsed = d.is_used) ∧
      l.length = (s.filter (fun d => d.therapist_id == U)).length ∧
      (s.WF → (l.map (fun v => v.id)).Nodup) ∧
      l.Chain' (fun a b => a.createdAt ≥ b.createdAt) ∧
      ∀ d ∈ s, d.created_at = none → (toView d).createdAt = 0 := by
  have hr := resolveIdentity_own harg
  refine ⟨_, ?_, jsSort_perm _ _, ?_, ?_, ?_, ?_, jsSort_createdDesc_chain _, ?_⟩
  · simp [getTherapistInvitations, hr]
  · intro v hv
    rw [mem_jsSort] at hv
    obtain ⟨d, hd, rfl⟩ := List.mem_map.1 hv
    obtain ⟨hds, hcond⟩ := List.mem_filter.1 hd
    have hc : d.therapist_id = U := by simpa using hcond
    have hf := toView_fields d
    exact ⟨d, hds, hc, hf.1, hf.2.1.trans hc, hf.2.2.1, hf.2.2.2.2⟩
  · intro d hd h1
    refine ⟨toView d, ?_, rfl, rfl⟩
    rw [mem_jsSort]
    exact List.mem_map.2 ⟨d, List.mem_filter.2 ⟨hd, by simp [h1]⟩, rfl⟩
  · rw [(jsSort_perm _ _).length_eq, List.length_map]
  · intro hwf
    have hp := (jsSort_perm createdDesc
      ((s.filter (fun d => d.therapist_id == U)).map toView)).map (fun v => v.id)
    rw [hp.nodup_iff, List.map_map]
    have hsub : ((s.filter (fun d => d.therapist_id == U)).map (fun d => d.id)).Sublist
        (s.map (fun d => d.id)) := List.Sublist.map _ (List.filter_sublist _)
    exact hsub.nodup hwf.1
  · intro d _ hd
    simp [toView, createdAtDate, hd]

theorem getTherapistInvitations_all_sorted_witness :
    (getTherapistInvitations acceptedStore (some "U1") (some "U1")).toOption.map
        (List.map (fun v => (v.id, v.isUsed, v.createdAt))) =
      some [("a6", true, 99000), ("a7", false, 50000), ("a1", true, 10000),
        ("a2", true, 5000), ("a3", false, 0)] ∧
    ∃ l, getTherapistInvitations acceptedStore (some "U1") (some "U1") = .ok l ∧
      l.Perm ((acceptedStore.filter (fun d => d.therapist_id == "U1")).map toView) ∧
      (∀ v ∈ l, ∃ d ∈ acceptedStore, d.therapist_id = "U1" ∧ v.id = d.id ∧
        v.therapistId = "U1" ∧ v.isUsed = d.is_used ∧
        v.createdAt = (d.created_at.map Timestamp.toDate).getD 0) ∧
      (∀ d ∈ acceptedStore, d.therapist_id = "U1" →
        ∃ v ∈ l, v.id = d.id ∧ v.isUsed = d.is_used) ∧
      l.length = (acceptedStore.filter (fun d => d.therapist_id == "U1")).length ∧
      (Store.WF acceptedStore → (l.map (fun v => v.id)).Nodup) ∧
      l.Chain' (fun a b => a.createdAt ≥ b.createdAt) ∧
      ∀ d ∈ acceptedStore, d.created_at = none → (toView d).createdAt = 0 :=
  ⟨by decide,
    getTherapistInvitations_all_sorted acceptedStore "U1" (some "U1") (Or.inr (Or.inr rfl))⟩

/-! ## USED is terminal (C4) -/

theorem deleteDoc_fresh {s : Store} {ref : String} (h : ∀ d ∈ s, d.id ≠ ref) :
    deleteDoc s ref = s := by
  unfold deleteDoc
  rw [List.filter_eq_self]
  intro d hd
  simpa using h d hd

theorem setDoc_fresh {s : Store} {doc : InvitationDoc} (h : ∀ d ∈ s, d.id ≠ doc.id) :
    setDoc s doc = s ++ [doc] := by
  unfold setDoc
  have hany : s.any (fun d => d.id == doc.id) = false := by
    rw [List.any_eq_false]
    intro d hd
    simpa using h d hd
  simp [hany]

theorem deleteDoc_setDoc_fresh {s : Store} {doc : InvitationDoc} (h : ∀ d ∈ s, d.id ≠ doc.id) :
    deleteDoc (setDoc s doc) doc.id = s := by
  rw [setDoc_fresh h]
  unfold deleteDoc
  rw [List.filter_append, List.filter_eq_self.2 (fun d hd => by simpa using h d hd)]
  simp

theorem redeemTransaction_store (s : Store) (ref P : String) (clk : RedeemClock) :
    (redeemTransaction s ref P clk).1 = s ∨
    ∃ inv, getDoc s ref = some inv ∧ inv.is_used = false ∧
      (redeemTransaction s ref P clk).1 = updateDoc s ref (consume P clk.server) := by
  unfold redeemTransaction
  cases hget : getDoc s ref with
  | none => exact Or.inl rfl
  | some inv =>
    by_cases h : inv.is_used = true ∨ expiresAtDate inv ≤ clk.now
    · left
      simp only [if_pos h]
    · right
      refine ⟨inv, rfl, ?_, ?_⟩
      · cases hu : inv.is_used
        · rfl
        · exact absurd (Or.inl hu) h
      · simp only [if_neg h]

theorem validateAndUseInvitation_store (s : Store) (auth raw : Option String)
    (clk : RedeemClock) :
    (validateAndUseInvitation s auth raw clk).1 = s ∨
    ∃ inv P, getDoc s inv.id = some inv ∧ inv.is_used = false ∧
      (validateAndUseInvitation s auth raw clk).1 = updateDoc s inv.id (consume P clk.server) := by
  unfold validateAndUseInvitation
  cases redeemLookup s auth raw with
  | reply r => exact Or.inl rfl
  | located P ref =>
    rcases redeemTransaction_store s ref P clk with h | ⟨inv, hget, hu, h⟩
    · exact Or.inl h
    · have hid := (mem_of_getDoc hget).2
      subst hid
      exact Or.inr ⟨inv, P, hget, hu, h⟩

theorem deleteInvitation_store (s : Store) (auth invitationId : Option String) :
    (deleteInvitation s auth invitationId).1 = s ∨
    ∃ inv, getDoc s inv.id = some inv ∧ inv.is_used = false ∧
      (deleteInvitation s auth invitationId).1 = deleteDoc s inv.id := by
  unfold deleteInvitation
  cases auth with
  | none => exact Or.inl rfl
  | some T =>
    by_cases hne : orEmpty invitationId = ""
    · left
      simp only [hne, if_true]
    · simp only [hne, if_false]
      cases hget : getDoc s (orEmpty invitationId) with
      | none => exact Or.inl rfl
      | some inv =>
        by_cases hT : inv.therapist_id ≠ T
        · left
          simp only [hT, ne_eq, not_false_eq_true, if_true]
        · by_cases hu : inv.is_used = true
          · left
            simp only [hT, hu, if_true, if_false]
          · right
            have hid := (mem_of_getDoc hget).2
            refine ⟨inv, by rw [hid]; exact hget, by simpa using hu, ?_⟩
            simp [hT, hu, hid]

theorem createInvitationAndSendEmail_store {s s' : Store} {auth : Option String}
    {data : CreateData} {env : CreateEnv} {r : Except HttpsError CreateReply}
    (h : createInvitationAndSendEmail s auth data env = some (s', r)) :
    s' = s ∨ s' = deleteDoc s env.newId ∨
    ∃ doc : InvitationDoc, doc.id = env.newId ∧ doc.is_used = false ∧
      (s' = setDoc s doc ∨ s' = deleteDoc (setDoc s doc) env.newId) := by
  unfold createInvitationAndSendEmail at h
  cases auth with
  | none =>
    simp only [Option.some.injEq, Prod.mk.injEq] at h
    exact Or.inl h.1.symm
  | some uid =>
    simp only at h
    split_ifs at h <;>
      first
      | (simp only [Option.some.injEq, Prod.mk.injEq] at h
         exact Or.inl h.1.symm)
      | (cases hp : pickCode s env.codes with
         | none => simp [hp] at h
         | some code =>
           simp only [hp, Option.some.injEq, Prod.mk.injEq] at h
           first
           | exact Or.inl h.1.symm
           | exact Or.inr (Or.inl h.1.symm)
           | exact Or.inr (Or.inr ⟨_, rfl, rfl, Or.inl h.1.symm⟩)
           | exact Or.inr (Or.inr ⟨_, rfl, rfl, Or.inr h.1.symm⟩))

theorem used_kept_of {s s' : Store} (hwf : s.WF)
    (hA : ∀ d ∈ s, d.is_used = true → d ∈ s')
    (hB : ∀ d' ∈ s', d' ∈ s ∨ d'.is_used = true ∨ ∀ d ∈ s, d.id ≠ d'.id) :
    (∀ d ∈ s, d.is_used = true →
      ∃ d' ∈ s', d'.id = d.id ∧ d'.is_used = true ∧ d'.patient_id = d.patient_id) ∧
    (∀ d ∈ s, ∀ d' ∈ s', d'.id = d.id → d'.is_used ≠ d.is_used →
      d.is_used = false ∧ d'.is_used = true) := by
  constructor
  · intro d hd hu
    exact ⟨d, hA d hd hu, rfl, hu, rfl⟩
  · intro d hd d' hd' hid hne
    have key : d.is_used = true → d'.is_used = true := by
      intro hu
      rcases hB d' hd' with h | h | h
      · rw [eq_of_id_eq hwf h hd hid]
        exact hu
      · exact h
      · exact absurd hid.symm (h d hd)
    cases hu : d.is_used
    · refine ⟨rfl, ?_⟩
      cases hu' : d'.is_used
      · rw [hu, hu'] at hne
        exact absurd rfl hne
      · rfl
    · have := key hu
      rw [hu, this] at hne
      exact absurd rfl hne

theorem used_kept_refl {s : Store} :
    (∀ d ∈ s, d.is_used = true → d ∈ s) ∧
    (∀ d' ∈ s, d' ∈ s ∨ d'.is_used = true ∨ ∀ d ∈ s, d.id ≠ d'.id) :=
  ⟨fun _ hd _ => hd, fun _ hd => Or.inl hd⟩

theorem used_kept_updateDoc {s : Store} (hwf : s.WF) {inv : InvitationDoc}
    (hget : getDoc s inv.id = some inv) (hu : inv.is_used = false) (P : String) (t : Timestamp) :
    (∀ d ∈ s, d.is_used = true → d ∈ updateDoc s inv.id (consume P t)) ∧
    (∀ d' ∈ updateDoc s inv.id (consume P t),
      d' ∈ s ∨ d'.is_used = true ∨ ∀ d ∈ s, d.id ≠ d'.id) := by
  have hm := (mem_of_getDoc hget).1
  constructor
  · intro d hd hdu
    have hne : d.id ≠ inv.id := by
      intro hid
      rw [eq_of_id_eq hwf hd hm hid, hu] at hdu
      exact absurd hdu (by decide)
    exact List.mem_map.2 ⟨d, hd, by simp [hne]⟩
  · intro d' hd'
    obtain ⟨d0, hd0, hEq⟩ := List.mem_map.1 hd'
    by_cases hid : d0.id = inv.id
    · rw [if_pos hid] at hEq
      right; left
      rw [← hEq]
      rfl
    · rw [if_neg hid] at hEq
      left
      rw [← hEq]
      exact hd0

theorem used_kept_deleteDoc {s : Store} (hwf : s.WF) {inv : InvitationDoc}
    (hget : getDoc s inv.id = some inv) (hu : inv.is_used = false) :
    (∀ d ∈ s, d.is_used = true → d ∈ deleteDoc s inv.id) ∧
    (∀ d' ∈ deleteDoc s inv.id, d' ∈ s ∨ d'.is_used = true ∨ ∀ d ∈ s, d.id ≠ d'.id) := by
  have hm := (mem_of_getDoc hget).1
  constructor
  · intro d hd hdu
    have hne : d.id ≠ inv.id := by
      intro hid
      rw [eq_of_id_eq hwf hd hm hid, hu] at hdu
      exact absurd hdu (by decide)
    exact List.mem_filter.2 ⟨hd, by simpa using hne⟩
  · intro d' hd'
    exact Or.inl (List.mem_filter.1 hd').1

theorem used_kept_setDoc {s : Store} {doc : InvitationDoc} (h : ∀ d ∈ s, d.id ≠ doc.id) :
    (∀ d ∈ s, d.is_used = true → d ∈ setDoc s doc) ∧
    (∀ d' ∈ setDoc s doc, d' ∈ s ∨ d'.is_used = true ∨ ∀ d ∈ s, d.id ≠ d'.id) := by
  rw [setDoc_fresh h]
  constructor
  · intro d hd _
    exact List.mem_append_left _ hd
  · intro d' hd'
    rcases List.mem_append.1 hd' with h1 | h1
    · exact Or.inl h1
    · rw [List.mem_singleton] at h1
      rw [h1]
      exact Or.inr (Or.inr h)

/-- C4: USED is terminal. For every store with distinct document ids and every operation
of the module taken as one step (creation with its compensating delete, where the
auto-generated document id is unused in the store; redemption; deletion; preview; the
three lists), with any caller and arguments, every record with is_used = true before
the step is in the store after it with is_used = true and the same patient_id, and when
a record of the same id has a different is_used after the step, the change is from
false to true. -/
theorem used_is_terminal (s s' : Store) (op : Op) (hwf : s.WF)
    (hfresh : ∀ auth data env, op = .create auth data env → ∀ d ∈ s, d.id ≠ env.newId)
    (hstep : step s op = some s') :
    (∀ d ∈ s, d.is_used = true →
      ∃ d' ∈ s', d'.id = d.id ∧ d'.is_used = true ∧ d'.patient_id = d.patient_id) ∧
    (∀ d ∈ s, ∀ d' ∈ s', d'.id = d.id → d'.is_used ≠ d.is_used →
      d.is_used = false ∧ d'.is_used = true) := by
  have hsame : ∀ t : Store, t = s →
      (∀ d ∈ s, d.is_used = true → d ∈ t) ∧
      (∀ d' ∈ t, d' ∈ s ∨ d'.is_used = true ∨ ∀ d ∈ s, d.id ≠ d'.id) := by
    intro t ht
    rw [ht]
    exact used_kept_refl
  suffices hk : (∀ d ∈ s, d.is_used = true → d ∈ s') ∧
      (∀ d' ∈ s', d' ∈ s ∨ d'.is_used = true ∨ ∀ d ∈ s, d.id ≠ d'.id) from
    used_kept_of hwf hk.1 hk.2
  cases op with
  | create auth data env =>
    have hf := hfresh auth data env rfl
    have hmap : (createInvitationAndSendEmail s auth data env).map Prod.fst = some s' := hstep
    obtain ⟨⟨s1, r⟩, hr, hfst⟩ := Option.map_eq_some'.1 hmap
    have hs1 : s' = s1 := hfst.symm
    subst hs1
    rcases createInvitationAndSendEmail_store hr with h | h | ⟨doc, hid, _, h | h⟩
    · exact hsame s' h
    · exact hsame s' (by rw [h, deleteDoc_fresh hf])
    · rw [h]
      exact used_kept_setDoc (by rw [hid]; exact hf)
    · exact hsame s' (by rw [h, ← hid, deleteDoc_setDoc_fresh (by rw [hid]; exact hf)])
  | redeem auth raw clk =>
    simp only [step, Option.some.injEq] at hstep
    rcases validateAndUseInvitation_store s auth raw clk with h | ⟨inv, P, hget, hu, h⟩
    · exact hsame s' (by rw [← hstep, h])
    · rw [← hstep, h]
      exact used_kept_updateDoc hwf hget hu P clk.server
  | delete auth invitationId =>
    simp only [step, Option.some.injEq] at hstep
    rcases deleteInvitation_store s auth invitationId with h | ⟨inv, hget, hu, h⟩
    · exact hsame s' (by rw [← hstep, h])
    · rw [← hstep, h]
      exact used_kept_deleteDoc hwf hget hu
  | preview raw now =>
    simp only [step, Option.some.injEq] at hstep
    exact hsame s' hstep.symm
  | listTherapist auth arg =>
    simp only [step, Option.some.injEq] at hstep
    exact hsame s' hstep.symm
  | listAcceptedTherapist auth arg =>
    simp only [step, Option.some.injEq] at hstep
    exact hsame s' hstep.symm
  | listAcceptedPatient auth arg =>
    simp only [step, Option.some.injEq] at hstep
    exact hsame s' hstep.symm

theorem used_is_terminal_witness :
    step [pendingDoc, usedDoc] (.create (some "T1") newPatient newEnv)
      = some [pendingDoc, usedDoc, createdDoc] ∧
    (∀ d ∈ [pendingDoc, usedDoc], d.is_used = true →
      ∃ d' ∈ [pendingDoc, usedDoc, createdDoc],
        d'.id = d.id ∧ d'.is_used = true ∧ d'.patient_id = d.patient_id) ∧
    (∀ d ∈ [pendingDoc, usedDoc], ∀ d' ∈ [pendingDoc, usedDoc, createdDoc],
      d'.id = d.id → d'.is_used ≠ d.is_used → d.is_used = false ∧ d'.is_used = true) :=
  ⟨by decide,
    used_is_terminal [pendingDoc, usedDoc] [pendingDoc, usedDoc, createdDoc]
      (.create (some "T1") newPatient newEnv) (by decide)
      (fun _ _ env h d hd => by
        cases h
        revert d
        decide)
      (by decide)⟩

/-! ## generateCode (C12) -/

theorem digitChar_isDigit : ∀ m < 10, (Nat.digitChar m).isDigit = true := by decide

theorem digitChar_ne_zero : ∀ m < 10, m ≠ 0 → Nat.digitChar m ≠ '0' := by decide

theorem toDigits_five (n : Nat) (h1 : 10000 ≤ n) (h2 : n ≤ 99999) :
    Nat.toDigits 10 n = [Nat.digitChar (n / 10000), Nat.digitChar (n / 1000 % 10),
      Nat.digitChar (n / 100 % 10), Nat.digitChar (n / 10 % 10), Nat.digitChar (n % 10)] := by
  obtain ⟨k, rfl⟩ : ∃ k, n = k + 5 := ⟨n - 5, by omega⟩
  have e1 : (k + 5) / 10 ≠ 0 := by omega
  have e2 : (k + 5) / 10 / 10 ≠ 0 := by omega
  have e3 : (k + 5) / 10 / 10 / 10 ≠ 0 := by omega
  have e4 : (k + 5) / 10 / 10 / 10 / 10 ≠ 0 := by omega
  have e5 : (k + 5) / 10 / 10 / 10 / 10 / 10 = 0 := by omega
  simp only [Nat.toDigits, Nat.toDigitsCore, e1, e2, e3, e4, e5, if_false, if_true]
  have a1 : (k + 5) / 10 / 10 / 10 / 10 % 10 = (k + 5) / 10000 := by omega
  have a2 : (k + 5) / 10 / 10 / 10 % 10 = (k + 5) / 1000 % 10 := by omega
  have a3 : (k + 5) / 10 / 10 % 10 = (k + 5) / 100 % 10 := by omega
  rw [a1, a2, a3]

theorem toString_fiveDigits (n : Int) (h1 : 10000 ≤ n) (h2 : n ≤ 99999) :
    isFiveDigits (toString n) = true ∧ (toString n).data.head? ≠ some '0' := by
  obtain ⟨m, rfl⟩ : ∃ m : Nat, n = Int.ofNat m := ⟨n.toNat, by simp; omega⟩
  have hm1 : 10000 ≤ m := by
    have : (10000 : Int) ≤ (m : Int) := h1
    omega
  have hm2 : m ≤ 99999 := by
    have : (m : Int) ≤ 99999 := h2
    omega
  have hs : toString (Int.ofNat m) = String.mk (Nat.toDigits 10 m) := rfl
  rw [hs, toDigits_five m hm1 hm2]
  constructor
  · simp only [isFiveDigits, List.length_cons, List.length_nil, List.all_cons, List.all_nil,
      Bool.and_true, Bool.and_eq_true, beq_iff_eq]
    refine ⟨trivial, digitChar_isDigit _ (by omega), digitChar_isDigit _ (by omega),
      digitChar_isDigit _ (by omega), digitChar_isDigit _ (by omega),
      digitChar_isDigit _ (by omega)⟩
  · simp only [List.head?_cons, ne_eq, Option.some.injEq]
    exact digitChar_ne_zero _ (by omega) (by omega)

theorem roundHalfEven_bounds (q : ℚ) :
    Int.floor q ≤ roundHalfEven q ∧ roundHalfEven q ≤ Int.floor q + 1 := by
  unfold roundHalfEven
  simp only
  split_ifs <;> omega

theorem roundHalfEven_err (q : ℚ) : |(roundHalfEven q : ℚ) - q| ≤ 1 / 2 := by
  have h1 := Int.floor_le q
  have h2 := Int.lt_floor_add_one q
  unfold roundHalfEven
  simp only
  split_ifs with a b c <;> rw [abs_le] <;> push_cast <;> constructor <;> linarith

theorem roundHalfEven_intCast (n : Int) : roundHalfEven (n : ℚ) = n := by
  unfold roundHalfEven
  simp

theorem le_roundHalfEven {n : Int} {q : ℚ} (h : (n : ℚ) ≤ q) : n ≤ roundHalfEven q :=
  le_trans (Int.le_floor.2 h) (roundHalfEven_bounds q).1

theorem roundHalfEven_le {n : Int} {q : ℚ} (h : q ≤ (n : ℚ)) : roundHalfEven q ≤ n := by
  rcases eq_or_lt_of_le h with h | h
  · rw [h, roundHalfEven_intCast]
  · have h1 : Int.floor q < n := Int.floor_lt.2 h
    have h2 := (roundHalfEven_bounds q).2
    omega

theorem log_eq_of_binade {x : ℚ} {e : Int} (hx : 0 < x) (h1 : (2 : ℚ) ^ e ≤ x)
    (h2 : x < (2 : ℚ) ^ (e + 1)) : Int.log 2 x = e := by
  have a : e ≤ Int.log 2 x :=
    (Int.zpow_le_iff_le_log (by norm_num) hx).1 (by exact_mod_cast h1)
  have b : Int.log 2 x < e + 1 :=
    (Int.lt_zpow_iff_log_lt (by norm_num) hx).1 (by exact_mod_cast h2)
  omega

theorem roundDouble_of_binade {x : ℚ} {e : Int} (h1 : (2 : ℚ) ^ e ≤ x)
    (h2 : x < (2 : ℚ) ^ (e + 1)) (he : -1022 ≤ e) :
    roundDouble x = roundHalfEven (x / (2 : ℚ) ^ (e - 52)) * (2 : ℚ) ^ (e - 52) := by
  have hx : 0 < x := lt_of_lt_of_le (zpow_pos (by norm_num) e) h1
  unfold roundDouble
  rw [if_neg hx.ne', abs_of_pos hx, log_eq_of_binade hx h1 h2, max_eq_left he]

theorem roundDouble_form {x : ℚ} (hx : 0 < x) :
    ∃ e : Int, -1022 ≤ e ∧ x < (2 : ℚ) ^ (e + 1) ∧ ((2 : ℚ) ^ e ≤ x ∨ e = -1022) ∧
      roundDouble x = roundHalfEven (x / (2 : ℚ) ^ (e - 52)) * (2 : ℚ) ^ (e - 52) := by
  have hlo : (2 : ℚ) ^ Int.log 2 x ≤ x := by
    have := Int.zpow_log_le_self (b := 2) (r := x) (by norm_num) hx
    exact_mod_cast this
  have hhi : x < (2 : ℚ) ^ (Int.log 2 x + 1) := by
    have := Int.lt_zpow_succ_log_self (b := 2) (by norm_num) x
    exact_mod_cast this
  refine ⟨max (Int.log 2 x) (-1022), le_max_right _ _, ?_, ?_, ?_⟩
  · refine lt_of_lt_of_le hhi (zpow_le_zpow_right₀ (by norm_num) ?_)
    have := le_max_left (Int.log 2 x) (-1022)
    omega
  · rcases le_total (-1022) (Int.log 2 x) with h | h
    · left
      rw [max_eq_left h]
      exact hlo
    · right
      exact max_eq_right h
  · unfold roundDouble
    rw [if_neg hx.ne', abs_of_pos hx]

theorem roundDouble_zero : roundDouble 0 = 0 := by
  unfold roundDouble
  simp

theorem roundDouble_err {x : ℚ} (h0 : 0 ≤ x) (h1 : x < (2 : ℚ) ^ (17 : Int)) :
    |roundDouble x - x| ≤ 1 / 2 ^ 37 := by
  rcases eq_or_lt_of_le h0 with h | hx
  · rw [← h, roundDouble_zero]
    norm_num
  · obtain ⟨e, _, _, hlo, hform⟩ := roundDouble_form hx
    have he : e ≤ 16 := by
      rcases hlo with hlo | hlo
      · have : (2 : ℚ) ^ e < (2 : ℚ) ^ (17 : Int) := lt_of_le_of_lt hlo h1
        have := (zpow_lt_zpow_iff_right₀ (by norm_num : (1 : ℚ) < 2)).1 this
        omega
      · omega
    have hu : (0 : ℚ) < (2 : ℚ) ^ (e - 52) := zpow_pos (by norm_num) _
    have hu2 : (2 : ℚ) ^ (e - 52) ≤ 1 / 2 ^ 36 := by
      have : (2 : ℚ) ^ (e - 52) ≤ (2 : ℚ) ^ (-36 : Int) :=
        zpow_le_zpow_right₀ (by norm_num) (by omega)
      refine le_trans this (le_of_eq ?_)
      norm_num [zpow_neg]
    have herr := roundHalfEven_err (x / (2 : ℚ) ^ (e - 52))
    have hx' : x = x / (2 : ℚ) ^ (e - 52) * (2 : ℚ) ^ (e - 52) := by
      field_simp
    rw [hform]
    have : (roundHalfEven (x / (2 : ℚ) ^ (e - 52)) : ℚ) * (2 : ℚ) ^ (e - 52) - x =
        ((roundHalfEven (x / (2 : ℚ) ^ (e - 52)) : ℚ) - x / (2 : ℚ) ^ (e - 52)) *
          (2 : ℚ) ^ (e - 52) := by
      field_simp
    rw [this, abs_mul, abs_of_pos hu]
    calc |(roundHalfEven (x / (2 : ℚ) ^ (e - 52)) : ℚ) - x / (2 : ℚ) ^ (e - 52)| *
          (2 : ℚ) ^ (e - 52)
        ≤ 1 / 2 * (2 : ℚ) ^ (e - 52) := mul_le_mul_of_nonneg_right herr hu.le
      _ ≤ 1 / 2 * (1 / 2 ^ 36) := mul_le_mul_of_nonneg_left hu2 (by norm_num)
      _ = 1 / 2 ^ 37 := by norm_num

theorem roundDouble_nonneg {x : ℚ} (h0 : 0 ≤ x) : 0 ≤ roundDouble x := by
  rcases eq_or_lt_of_le h0 with h | hx
  · rw [← h, roundDouble_zero]
  · obtain ⟨e, _, _, _, hform⟩ := roundDouble_form hx
    rw [hform]
    have hu : (0 : ℚ) < (2 : ℚ) ^ (e - 52) := zpow_pos (by norm_num) _
    have hq : ((0 : Int) : ℚ) ≤ x / (2 : ℚ) ^ (e - 52) := by
      push_cast
      exact div_nonneg h0 hu.le
    have := le_roundHalfEven hq
    have h2 : (0 : ℚ) ≤ (roundHalfEven (x / (2 : ℚ) ^ (e - 52)) : ℚ) := by exact_mod_cast this
    exact mul_nonneg h2 hu.le

theorem roundDouble_le_pow {x : ℚ} {k : Int} (h0 : 0 ≤ x) (h1 : x < (2 : ℚ) ^ k)
    (hk : -1021 ≤ k) : roundDouble x ≤ (2 : ℚ) ^ k := by
  rcases eq_or_lt_of_le h0 with h | hx
  · rw [← h, roundDouble_zero]
    exact (zpow_pos (by norm_num) k).le
  · obtain ⟨e, _, hhi, hlo, hform⟩ := roundDouble_form hx
    have he : e + 1 ≤ k := by
      rcases hlo with hlo | hlo
      · have : (2 : ℚ) ^ e < (2 : ℚ) ^ k := lt_of_le_of_lt hlo h1
        have := (zpow_lt_zpow_iff_right₀ (by norm_num : (1 : ℚ) < 2)).1 this
        omega
      · omega
    have hu : (0 : ℚ) < (2 : ℚ) ^ (e - 52) := zpow_pos (by norm_num) _
    have hsplit : (2 : ℚ) ^ (e + 1) = (2 : ℚ) ^ (53 : Int) * (2 : ℚ) ^ (e - 52) := by
      rw [← zpow_add₀ (by norm_num : (2 : ℚ) ≠ 0)]
      congr 1
      omega
    have hq : x / (2 : ℚ) ^ (e - 52) ≤ (((2 : Int) ^ 53 : Int) : ℚ) := by
      rw [div_le_iff₀ hu]
      have : ((((2 : Int) ^ 53 : Int)) : ℚ) = (2 : ℚ) ^ (53 : Int) := by norm_num
      rw [this, ← hsplit]
      exact hhi.le
    have hR := roundHalfEven_le hq
    have hR' : (roundHalfEven (x / (2 : ℚ) ^ (e - 52)) : ℚ) ≤ (2 : ℚ) ^ (53 : Int) := by
      have : ((roundHalfEven (x / (2 : ℚ) ^ (e - 52)) : Int) : ℚ) ≤ (((2 : Int) ^ 53 : Int) : ℚ) := by
        exact_mod_cast hR
      refine le_trans this (le_of_eq ?_)
      norm_num
    rw [hform]
    calc (roundHalfEven (x / (2 : ℚ) ^ (e - 52)) : ℚ) * (2 : ℚ) ^ (e - 52)
        ≤ (2 : ℚ) ^ (53 : Int) * (2 : ℚ) ^ (e - 52) := mul_le_mul_of_nonneg_right hR' hu.le
      _ = (2 : ℚ) ^ (e + 1) := hsplit.symm
      _ ≤ (2 : ℚ) ^ k := zpow_le_zpow_right₀ (by norm_num) he

theorem pow_le_roundDouble {x : ℚ} {k : Int} (h1 : (2 : ℚ) ^ k ≤ x) (hk : -1022 ≤ k) :
    (2 : ℚ) ^ k ≤ roundDouble x := by
  have hx : 0 < x := lt_of_lt_of_le (zpow_pos (by norm_num) k) h1
  have hlo : (2 : ℚ) ^ Int.log 2 x ≤ x := by
    have := Int.zpow_log_le_self (b := 2) (r := x) (by norm_num) hx
    exact_mod_cast this
  have hhi : x < (2 : ℚ) ^ (Int.log 2 x + 1) := by
    have := Int.lt_zpow_succ_log_self (b := 2) (by norm_num) x
    exact_mod_cast this
  have hke : k ≤ Int.log 2 x :=
    (Int.zpow_le_iff_le_log (by norm_num) hx).1 (by exact_mod_cast h1)
  have he : -1022 ≤ Int.log 2 x := le_trans hk hke
  rw [roundDouble_of_binade hlo hhi he]
  set e := Int.log 2 x
  have hu : (0 : ℚ) < (2 : ℚ) ^ (e - 52) := zpow_pos (by norm_num) _
  have hsplit : (2 : ℚ) ^ e = (2 : ℚ) ^ (52 : Int) * (2 : ℚ) ^ (e - 52) := by
    rw [← zpow_add₀ (by norm_num : (2 : ℚ) ≠ 0)]
    congr 1
    omega
  have hq : (((2 : Int) ^ 52 : Int) : ℚ) ≤ x / (2 : ℚ) ^ (e - 52) := by
    rw [le_div_iff₀ hu]
    have : ((((2 : Int) ^ 52 : Int)) : ℚ) = (2 : ℚ) ^ (52 : Int) := by norm_num
    rw [this, ← hsplit]
    exact hlo
  have hR := le_roundHalfEven hq
  have hR' : (2 : ℚ) ^ (52 : Int) ≤ (roundHalfEven (x / (2 : ℚ) ^ (e - 52)) : ℚ) := by
    have : (((2 : Int) ^ 52 : Int) : ℚ) ≤ ((roundHalfEven (x / (2 : ℚ) ^ (e - 52)) : Int) : ℚ) := by
      exact_mod_cast hR
    refine le_trans (le_of_eq ?_) this
    norm_num
  calc (2 : ℚ) ^ k ≤ (2 : ℚ) ^ e := zpow_le_zpow_right₀ (by norm_num) hke
    _ = (2 : ℚ) ^ (52 : Int) * (2 : ℚ) ^ (e - 52) := hsplit
    _ ≤ (roundHalfEven (x / (2 : ℚ) ^ (e - 52)) : ℚ) * (2 : ℚ) ^ (e - 52) :=
      mul_le_mul_of_nonneg_right hR' hu.le

theorem roundDouble_dyadic (m : Nat) (k : Int) (hm : m < 2 ^ 53) (hk : -1074 ≤ k) :
    roundDouble ((m : ℚ) * (2 : ℚ) ^ k) = (m : ℚ) * (2 : ℚ) ^ k := by
  rcases Nat.eq_zero_or_pos m with h | hpos
  · subst h
    simp [roundDouble_zero]
  · have h2k : (0 : ℚ) < (2 : ℚ) ^ k := zpow_pos (by norm_num) k
    have hx : 0 < (m : ℚ) * (2 : ℚ) ^ k := mul_pos (by exact_mod_cast hpos) h2k
    obtain ⟨e, he, _, hlo, hform⟩ := roundDouble_form hx
    have hek : e ≤ k + 52 := by
      rcases hlo with hlo | hlo
      · have hm' : (m : ℚ) < (2 : ℚ) ^ (53 : Int) := by
          have : ((m : Nat) : ℚ) < ((2 ^ 53 : Nat) : ℚ) := by exact_mod_cast hm
          refine lt_of_lt_of_le this (le_of_eq ?_)
          norm_num
        have hlt : (m : ℚ) * (2 : ℚ) ^ k < (2 : ℚ) ^ (53 + k) := by
          rw [zpow_add₀ (by norm_num : (2 : ℚ) ≠ 0)]
          exact mul_lt_mul_of_pos_right hm' h2k
        have := (zpow_lt_zpow_iff_right₀ (by norm_num : (1 : ℚ) < 2)).1
          (lt_of_le_of_lt hlo hlt)
        omega
      · omega
    obtain ⟨j, hj⟩ : ∃ j : Nat, (j : Int) = k + 52 - e := ⟨(k + 52 - e).toNat, by omega⟩
    have hu : (0 : ℚ) < (2 : ℚ) ^ (e - 52) := zpow_pos (by norm_num) _
    have hq : (m : ℚ) * (2 : ℚ) ^ k / (2 : ℚ) ^ (e - 52) = (((m * 2 ^ j : Nat) : Int) : ℚ) := by
      rw [div_eq_iff hu.ne']
      push_cast
      rw [mul_assoc, ← zpow_natCast, ← zpow_add₀ (by norm_num : (2 : ℚ) ≠ 0)]
      congr 2
      omega
    rw [hform, hq, roundHalfEven_intCast, ← hq]
    field_simp

theorem Double.toRat_nonneg (d : Double) : 0 ≤ d.toRat :=
  mul_nonneg (Nat.cast_nonneg _) (zpow_pos (by norm_num) _).le

theorem Double.le_pred_one (d : Double) (h : d.toRat < 1) : d.toRat ≤ 1 - 1 / 2 ^ 53 := by
  unfold Double.toRat at *
  rcases le_or_lt d.exp (-53) with he | he
  · have h1 : (2 : ℚ) ^ d.exp ≤ (2 : ℚ) ^ (-53 : Int) := zpow_le_zpow_right₀ (by norm_num) he
    have h2 : (d.mant : ℚ) ≤ 2 ^ 53 - 1 := by
      have : d.mant ≤ 2 ^ 53 - 1 := by have := d.mant_lt; omega
      have : ((d.mant : Nat) : ℚ) ≤ ((2 ^ 53 - 1 : Nat) : ℚ) := by exact_mod_cast this
      refine le_trans this (le_of_eq ?_)
      norm_num
    calc (d.mant : ℚ) * (2 : ℚ) ^ d.exp ≤ (2 ^ 53 - 1) * (2 : ℚ) ^ (-53 : Int) :=
          mul_le_mul h2 h1 (zpow_pos (by norm_num) _).le (by norm_num)
      _ = 1 - 1 / 2 ^ 53 := by norm_num [zpow_neg]
  · obtain ⟨j, hj⟩ : ∃ j : Nat, (j : Int) = d.exp + 52 := ⟨(d.exp + 52).toNat, by omega⟩
    have hval : (d.mant : ℚ) * (2 : ℚ) ^ d.exp = ((d.mant * 2 ^ j : Nat) : ℚ) / 2 ^ 52 := by
      have hpow : (2 : ℚ) ^ d.exp * 2 ^ 52 = (2 : ℚ) ^ j := by
        rw [← zpow_natCast (2 : ℚ) j, hj, zpow_add₀ (by norm_num : (2 : ℚ) ≠ 0)]
        norm_num
      rw [eq_div_iff (by norm_num)]
      push_cast
      rw [mul_assoc, hpow]
    rw [hval] at h ⊢
    rw [div_lt_one (by norm_num)] at h
    have hN : d.mant * 2 ^ j < 2 ^ 52 := by
      have : ((d.mant * 2 ^ j : Nat) : ℚ) < ((2 ^ 52 : Nat) : ℚ) := by
        refine lt_of_lt_of_le h (le_of_eq ?_)
        norm_num
      exact_mod_cast this
    have hN' : ((d.mant * 2 ^ j : Nat) : ℚ) ≤ 2 ^ 52 - 1 := by
      have : d.mant * 2 ^ j ≤ 2 ^ 52 - 1 := by omega
      have : ((d.mant * 2 ^ j : Nat) : ℚ) ≤ ((2 ^ 52 - 1 : Nat) : ℚ) := by exact_mod_cast this
      refine le_trans this (le_of_eq ?_)
      norm_num
    rw [div_le_iff₀ (by norm_num)]
    refine le_trans hN' ?_
    norm_num

theorem product_bounds (r : Double) (h : r.toRat < 1) :
    0 ≤ r.toRat * 90000 ∧ r.toRat * 90000 ≤ 90000 - 90000 / 2 ^ 53 ∧
    r.toRat * 90000 < (2 : ℚ) ^ (17 : Int) := by
  have h0 := r.toRat_nonneg
  have h1 := r.le_pred_one h
  refine ⟨by positivity, by linarith, ?_⟩
  have : (2 : ℚ) ^ (17 : Int) = 131072 := by norm_num
  rw [this]
  linarith

theorem codeValue_err (r : Double) (h : r.toRat < 1) :
    |codeValue r - (10000 + r.toRat * 90000)| ≤ 1 / 2 ^ 36 := by
  obtain ⟨hx0, hx1, hx2⟩ := product_bounds r h
  have hy := roundDouble_err hx0 hx2
  have hy0 := roundDouble_nonneg hx0
  rw [abs_le] at hy
  have hz1 : 10000 + roundDouble (r.toRat * 90000) < (2 : ℚ) ^ (17 : Int) := by
    have : (2 : ℚ) ^ (17 : Int) = 131072 := by norm_num
    rw [this]
    have : (1 : ℚ) / 2 ^ 37 < 1 := by norm_num
    have : (90000 : ℚ) / 2 ^ 53 > 0 := by norm_num
    linarith [hy.2]
  have hz := roundDouble_err (by linarith : (0 : ℚ) ≤ 10000 + roundDouble (r.toRat * 90000)) hz1
  rw [abs_le] at hz
  unfold codeValue
  rw [abs_le]
  have : (1 : ℚ) / 2 ^ 36 = 1 / 2 ^ 37 + 1 / 2 ^ 37 := by norm_num
  constructor <;> linarith [hy.1, hy.2, hz.1, hz.2]

theorem codeValue_ge (r : Double) (h : r.toRat < 1) : 10000 ≤ codeValue r := by
  obtain ⟨hx0, _, _⟩ := product_bounds r h
  have hy0 := roundDouble_nonneg hx0
  unfold codeValue
  set z := 10000 + roundDouble (r.toRat * 90000) with hz
  have hz0 : (10000 : ℚ) ≤ z := by rw [hz]; linarith
  rcases lt_or_le z ((2 : ℚ) ^ (14 : Int)) with hlt | hge
  · have h13 : (2 : ℚ) ^ (13 : Int) ≤ z := by
      have : (2 : ℚ) ^ (13 : Int) = 8192 := by norm_num
      rw [this]
      linarith
    rw [roundDouble_of_binade h13 (by simpa using hlt) (by norm_num)]
    have hu : (2 : ℚ) ^ ((13 : Int) - 52) = 1 / 2 ^ 39 := by norm_num [zpow_neg]
    rw [hu]
    have hq : (((10000 * 2 ^ 39 : Int)) : ℚ) ≤ z / (1 / 2 ^ 39) := by
      rw [le_div_iff₀ (by norm_num)]
      push_cast
      linarith
    have hR := le_roundHalfEven hq
    have hR' : ((10000 * 2 ^ 39 : Int) : ℚ) ≤ (roundHalfEven (z / (1 / 2 ^ 39)) : ℚ) := by
      exact_mod_cast hR
    have hc : ((10000 * 2 ^ 39 : Int) : ℚ) = 10000 * 2 ^ 39 := by norm_num
    rw [hc] at hR'
    calc (10000 : ℚ) = 10000 * 2 ^ 39 * (1 / 2 ^ 39) := by norm_num
      _ ≤ (roundHalfEven (z / (1 / 2 ^ 39)) : ℚ) * (1 / 2 ^ 39) :=
        mul_le_mul_of_nonneg_right hR' (by norm_num)
  · have := pow_le_roundDouble hge (by norm_num)
    have h14 : (2 : ℚ) ^ (14 : Int) = 16384 := by norm_num
    rw [h14] at this
    linarith

theorem codeValue_lt (r : Double) (h : r.toRat < 1) : codeValue r < 100000 := by
  obtain ⟨hx0, hx1, hx2⟩ := product_bounds r h
  have hy0 := roundDouble_nonneg hx0
  have hyerr := roundDouble_err hx0 hx2
  rw [abs_le] at hyerr
  have h17 : (2 : ℚ) ^ (17 : Int) = 131072 := by norm_num
  have h16 : (2 : ℚ) ^ (16 : Int) = 65536 := by norm_num
  unfold codeValue
  rcases lt_or_le (r.toRat * 90000) ((2 : ℚ) ^ (16 : Int)) with hlt | hge
  · have hy := roundDouble_le_pow hx0 hlt (by norm_num)
    rw [h16] at hy
    have hz1 : 10000 + roundDouble (r.toRat * 90000) < (2 : ℚ) ^ (17 : Int) := by
      rw [h17]
      linarith
    have hz := roundDouble_err (by linarith : (0 : ℚ) ≤ 10000 + roundDouble (r.toRat * 90000))
      hz1
    rw [abs_le] at hz
    have : (1 : ℚ) / 2 ^ 37 < 1 := by norm_num
    linarith [hz.2]
  · have hform := roundDouble_of_binade hge (by simpa using hx2) (by norm_num)
    have hu : (2 : ℚ) ^ ((16 : Int) - 52) = 1 / 2 ^ 36 := by norm_num [zpow_neg]
    rw [hu] at hform
    set N := roundHalfEven (r.toRat * 90000 / (1 / 2 ^ 36)) with hN
    have hylt : roundDouble (r.toRat * 90000) < 90000 := by
      have : (1 : ℚ) / 2 ^ 37 < 90000 / 2 ^ 53 := by norm_num
      linarith [hyerr.2]
    have hNlo : (2 : Int) ^ 52 ≤ N := by
      apply le_roundHalfEven
      rw [le_div_iff₀ (by norm_num)]
      rw [h16] at hge
      push_cast
      linarith
    have hNhi : N ≤ 90000 * 2 ^ 36 - 1 := by
      have : (N : ℚ) < ((90000 * 2 ^ 36 : Int) : ℚ) := by
        rw [hform] at hylt
        have h2 : (N : ℚ) * (1 / 2 ^ 36) < 90000 := hylt
        rw [mul_one_div, div_lt_iff₀ (by norm_num)] at h2
        refine lt_of_lt_of_le h2 (le_of_eq ?_)
        norm_num
      have : N < 90000 * 2 ^ 36 := by exact_mod_cast this
      omega
    obtain ⟨M, hM⟩ : ∃ M : Nat, (M : Int) = 10000 * 2 ^ 36 + N :=
      ⟨(10000 * 2 ^ 36 + N).toNat, by omega⟩
    have hMlt : M < 2 ^ 53 := by omega
    have hzM : 10000 + roundDouble (r.toRat * 90000) = (M : ℚ) * (2 : ℚ) ^ (-36 : Int) := by
      have hMq : (M : ℚ) = 10000 * 2 ^ 36 + (N : ℚ) := by
        have : ((M : Int) : ℚ) = ((10000 * 2 ^ 36 + N : Int) : ℚ) := by rw [hM]
        rw [Int.cast_natCast] at this
        rw [this]
        norm_num
      rw [hform, hMq]
      norm_num [zpow_neg]
      ring
    rw [hzM, roundDouble_dyadic M (-36) hMlt (by norm_num), ← hzM]
    linarith

theorem roundHalfEven_of_gt {q : ℚ} (n : Int) (h1 : (n : ℚ) + 1 / 2 < q) (h2 : q < n + 1) :
    roundHalfEven q = n + 1 := by
  have hf : Int.floor q = n := Int.floor_eq_iff.2 ⟨by linarith, h2⟩
  unfold roundHalfEven
  simp only [hf]
  rw [if_neg (by linarith), if_pos (by linarith)]

theorem roundHalfEven_of_lt {q : ℚ} (n : Int) (h1 : (n : ℚ) ≤ q) (h2 : q < n + 1 / 2) :
    roundHalfEven q = n := by
  have hf : Int.floor q = n := Int.floor_eq_iff.2 ⟨h1, by linarith⟩
  unfold roundHalfEven
  simp only [hf]
  rw [if_pos (by linarith)]

theorem skewedDraw_codeValue : codeValue skewedDraw = 10003 := by
  have hx : skewedDraw.toRat * 90000 = ((844424930131875 : Nat) : ℚ) * (2 : ℚ) ^ (-48 : Int) := by
    unfold Double.toRat skewedDraw
    norm_num [zpow_neg]
  have hy : roundDouble (skewedDraw.toRat * 90000) = 844424930131875 / 2 ^ 48 := by
    rw [hx, roundDouble_dyadic _ _ (by norm_num) (by norm_num)]
    norm_num [zpow_neg]
  unfold codeValue
  rw [hy]
  have h13 : (2 : ℚ) ^ (13 : Int) ≤ 10000 + 844424930131875 / 2 ^ 48 := by norm_num
  have h14 : (10000 : ℚ) + 844424930131875 / 2 ^ 48 < (2 : ℚ) ^ ((13 : Int) + 1) := by norm_num
  rw [roundDouble_of_binade h13 h14 (by norm_num)]
  have hR : roundHalfEven ((10000 + 844424930131875 / 2 ^ 48) / (2 : ℚ) ^ ((13 : Int) - 52)) =
      5499207406321663 + 1 :=
    roundHalfEven_of_gt 5499207406321663 (by norm_num [zpow_neg]) (by norm_num [zpow_neg])
  rw [hR]
  norm_num [zpow_neg]

theorem skewedDraw_exact :
    Int.floor (10000 + 90000 * skewedDraw.toRat) = 10002 := by
  rw [Int.floor_eq_iff]
  unfold Double.toRat skewedDraw
  constructor <;> norm_num [zpow_neg]

theorem exists_draw_for (n : Int) (h1 : 10000 ≤ n) (h2 : n ≤ 99999) :
    ∃ r : Double, r.toRat < 1 ∧ codeNumber r = n := by
  obtain ⟨m, hm⟩ : ∃ m : Nat, (m : Int) = n - 10000 := ⟨(n - 10000).toNat, by omega⟩
  have hm2 : m ≤ 89999 := by omega
  set K : Nat := (m * 2 ^ 40 + 89999) / 90000 with hK
  have hK1 : m * 2 ^ 40 ≤ 90000 * K := by omega
  have hK2 : 90000 * K < m * 2 ^ 40 + 90000 := by omega
  have hK3 : K < 2 ^ 40 := by omega
  have hKq1 : (m : ℚ) * 2 ^ 40 ≤ 90000 * (K : ℚ) := by exact_mod_cast hK1
  have hKq2 : 90000 * (K : ℚ) < (m : ℚ) * 2 ^ 40 + 90000 := by exact_mod_cast hK2
  have hmq : (m : ℚ) = (n : ℚ) - 10000 := by
    have : ((m : Int) : ℚ) = ((n - 10000 : Int) : ℚ) := by rw [hm]
    rw [Int.cast_natCast] at this
    rw [this]
    push_cast
    ring
  obtain ⟨r, hr⟩ : ∃ r : Double, r.toRat = (K : ℚ) * (2 : ℚ) ^ (-40 : Int) :=
    ⟨⟨K, -40, by omega, by norm_num, by norm_num⟩, rfl⟩
  have h40 : (2 : ℚ) ^ (-40 : Int) = 1 / 2 ^ 40 := by norm_num [zpow_neg]
  have h36 : (2 : ℚ) ^ (-36 : Int) = 1 / 2 ^ 36 := by norm_num [zpow_neg]
  refine ⟨r, ?_, ?_⟩
  · have : (K : ℚ) < 2 ^ 40 := by exact_mod_cast hK3
    rw [hr, h40, mul_one_div, div_lt_one (by norm_num)]
    exact this
  · have hx : r.toRat * 90000 = ((5625 * K : Nat) : ℚ) * (2 : ℚ) ^ (-36 : Int) := by
      rw [hr, h40, h36]
      push_cast
      ring
    have hz : (10000 : ℚ) + ((5625 * K : Nat) : ℚ) * (2 : ℚ) ^ (-36 : Int) =
        ((10000 * 2 ^ 36 + 5625 * K : Nat) : ℚ) * (2 : ℚ) ^ (-36 : Int) := by
      rw [h36]
      push_cast
      ring
    unfold codeNumber codeValue
    rw [hx, roundDouble_dyadic _ _ (by omega) (by norm_num), hz,
      roundDouble_dyadic _ _ (by omega) (by norm_num), Int.floor_eq_iff, h36]
    push_cast
    have hn : (n : ℚ) = (m : ℚ) + 10000 := by rw [hmq]; ring
    rw [hn]
    constructor
    · rw [mul_one_div, le_div_iff₀ (by norm_num)]
      nlinarith [hKq1]
    · rw [mul_one_div, div_lt_iff₀ (by norm_num)]
      nlinarith [hKq2]

theorem codeNumber_bounds (r : Double) (h : r.toRat < 1) :
    10000 ≤ codeNumber r ∧ codeNumber r ≤ 99999 := by
  unfold codeNumber
  constructor
  · apply Int.le_floor.2
    push_cast
    exact codeValue_ge r h
  · have : Int.floor (codeValue r) < 100000 := by
      apply Int.floor_lt.2
      push_cast
      exact codeValue_lt r h
    omega

theorem codeNumber_of_exact (r : Double) (h : r.toRat < 1) (n : Int)
    (h1 : (n : ℚ) + 1 / 2 ^ 36 ≤ 10000 + 90000 * r.toRat)
    (h2 : 10000 + 90000 * r.toRat < (n : ℚ) + 1 - 1 / 2 ^ 36) : codeNumber r = n := by
  have herr := codeValue_err r h
  rw [abs_le] at herr
  unfold codeNumber
  rw [Int.floor_eq_iff]
  constructor <;> linarith [herr.1, herr.2]

theorem exact_of_codeNumber (r : Double) (h : r.toRat < 1) (n : Int)
    (hn : codeNumber r = n) :
    (n : ℚ) - 1 / 2 ^ 36 ≤ 10000 + 90000 * r.toRat ∧
    10000 + 90000 * r.toRat < (n : ℚ) + 1 + 1 / 2 ^ 36 := by
  have herr := codeValue_err r h
  rw [abs_le] at herr
  unfold codeNumber at hn
  rw [Int.floor_eq_iff] at hn
  constructor <;> linarith [herr.1, herr.2, hn.1, hn.2]

theorem codeNumber_interval (r : Double) (h : r.toRat < 1) (n : Int) :
    (((n : ℚ) - 10000) / 90000 + 1 / 2 ^ 52 ≤ r.toRat →
      r.toRat ≤ ((n : ℚ) - 10000) / 90000 + 1 / 90000 - 1 / 2 ^ 52 → codeNumber r = n) ∧
    (codeNumber r = n →
      ((n : ℚ) - 10000) / 90000 - 1 / 2 ^ 52 < r.toRat ∧
      r.toRat < ((n : ℚ) - 10000) / 90000 + 1 / 90000 + 1 / 2 ^ 52) := by
  have hc : (1 : ℚ) / 2 ^ 36 < 90000 * (1 / 2 ^ 52) := by norm_num
  constructor
  · intro h1 h2
    apply codeNumber_of_exact r h n
    · have : 90000 * (((n : ℚ) - 10000) / 90000 + 1 / 2 ^ 52) ≤ 90000 * r.toRat :=
        mul_le_mul_of_nonneg_left h1 (by norm_num)
      have e : 90000 * (((n : ℚ) - 10000) / 90000 + 1 / 2 ^ 52) =
          (n : ℚ) - 10000 + 90000 * (1 / 2 ^ 52) := by ring
      linarith
    · have : 90000 * r.toRat ≤
          90000 * (((n : ℚ) - 10000) / 90000 + 1 / 90000 - 1 / 2 ^ 52) :=
        mul_le_mul_of_nonneg_left h2 (by norm_num)
      have e : 90000 * (((n : ℚ) - 10000) / 90000 + 1 / 90000 - 1 / 2 ^ 52) =
          (n : ℚ) - 10000 + 1 - 90000 * (1 / 2 ^ 52) := by ring
      linarith
  · intro hn
    obtain ⟨h1, h2⟩ := exact_of_codeNumber r h n hn
    have e1 : ((n : ℚ) - 10000) / 90000 - 1 / 2 ^ 52 =
        ((n : ℚ) - 10000 - 90000 * (1 / 2 ^ 52)) / 90000 := by ring
    have e2 : ((n : ℚ) - 10000) / 90000 + 1 / 90000 + 1 / 2 ^ 52 =
        ((n : ℚ) - 10000 + 1 + 90000 * (1 / 2 ^ 52)) / 90000 := by ring
    rw [e1, e2, div_lt_iff₀ (by norm_num), lt_div_iff₀ (by norm_num)]
    constructor <;> linarith

theorem generateCode_eq (r : Double) : generateCode r = toString (codeNumber r) :=
  rfl

theorem skewedDraw_generateCode :
    skewedDraw.toRat < 1 ∧ generateCode skewedDraw = "10003" := by
  constructor
  · unfold Double.toRat skewedDraw
    norm_num [zpow_neg]
  · have : codeNumber skewedDraw = 10003 := by
      unfold codeNumber
      rw [skewedDraw_codeValue]
      exact Int.floor_eq_iff.2 ⟨by norm_num, by norm_num⟩
    rw [generateCode_eq, this]
    decide

/-- C12, as stated, fails: at the binary64 draw r = 150119987579 / 2^52 the product
r * 90000 is just below 3 and the sum 10000 + r * 90000 rounds to 10003, so
generateCode returns "10003", while floor(10000 + 90000 r) over exact rationals is
10002. -/
theorem generateCode_not_exact_floor :
    0 ≤ skewedDraw.toRat ∧ skewedDraw.toRat < 1 ∧
    generateCode skewedDraw = "10003" ∧
    Int.floor (10000 + 90000 * skewedDraw.toRat) = 10002 ∧
    generateCode skewedDraw ≠ toString (Int.floor (10000 + 90000 * skewedDraw.toRat)) := by
  refine ⟨skewedDraw.toRat_nonneg, skewedDraw_generateCode.1, skewedDraw_generateCode.2,
    skewedDraw_exact, ?_⟩
  rw [skewedDraw_generateCode.2, skewedDraw_exact]
  decide

/-- C12 (amended): for every binary64 draw r with 0 <= r < 1, generateCode returns the
decimal string of floor(fl(10000 + fl(r * 90000))), where fl rounds an exact result to
binary64; this is an integer n with 10000 <= n <= 99999 and so a string of exactly 5
digits whose first digit is not 0. The computed value differs from the exact
10000 + 90000 r by at most 2^-36, so n is the integer m whenever
m + 2^-36 <= 10000 + 90000 r < m + 1 - 2^-36. Every integer n of [10000, 99999] is
produced by some draw, and the draws producing n are, up to 2^-52 at either end, those
of the interval from (n - 10000)/90000 to that plus 1/90000. -/
theorem generateCode_binary64 (r : Double) (h1 : r.toRat < 1) :
    generateCode r =
      toString (Int.floor (roundDouble (10000 + roundDouble (r.toRat * 90000)))) ∧
    10000 ≤ codeNumber r ∧ codeNumber r ≤ 99999 ∧
    isFiveDigits (generateCode r) = true ∧
    (generateCode r).data.head? ≠ some '0' ∧
    |roundDouble (10000 + roundDouble (r.toRat * 90000)) - (10000 + 90000 * r.toRat)|
      ≤ 1 / 2 ^ 36 ∧
    (∀ m : Int, (m : ℚ) + 1 / 2 ^ 36 ≤ 10000 + 90000 * r.toRat →
      10000 + 90000 * r.toRat < (m : ℚ) + 1 - 1 / 2 ^ 36 → generateCode r = toString m) ∧
    (∀ n : Int, 10000 ≤ n → n ≤ 99999 →
      (∃ q : Double, 0 ≤ q.toRat ∧ q.toRat < 1 ∧ generateCode q = toString n) ∧
      (((n : ℚ) - 10000) / 90000 + 1 / 2 ^ 52 ≤ r.toRat →
        r.toRat ≤ ((n : ℚ) - 10000) / 90000 + 1 / 90000 - 1 / 2 ^ 52 →
        generateCode r = toString n) ∧
      (codeNumber r = n →
        ((n : ℚ) - 10000) / 90000 - 1 / 2 ^ 52 < r.toRat ∧
        r.toRat < ((n : ℚ) - 10000) / 90000 + 1 / 90000 + 1 / 2 ^ 52)) := by
  have hb := codeNumber_bounds r h1
  have hd := toString_fiveDigits (codeNumber r) hb.1 hb.2
  have herr := codeValue_err r h1
  rw [generateCode_eq]
  refine ⟨rfl, hb.1, hb.2, hd.1, hd.2, ?_, ?_, ?_⟩
  · have e : (10000 : ℚ) + 90000 * r.toRat = 10000 + r.toRat * 90000 := by ring
    rw [e]
    exact herr
  · intro m hm1 hm2
    rw [codeNumber_of_exact r h1 m hm1 hm2]
  · intro n hn1 hn2
    obtain ⟨q, hq1, hq2⟩ := exists_draw_for n hn1 hn2
    refine ⟨⟨q, q.toRat_nonneg, hq1, by rw [generateCode_eq, hq2]⟩, ?_,
      (codeNumber_interval r h1 n).2⟩
    intro ha hb'
    rw [(codeNumber_interval r h1 n).1 ha hb']

theorem generateCode_binary64_witness :
    skewedDraw.toRat < 1 ∧ generateCode skewedDraw = "10003" ∧
    10000 ≤ codeNumber skewedDraw ∧ codeNumber skewedDraw ≤ 99999 ∧
    isFiveDigits (generateCode skewedDraw) = true ∧
    (generateCode skewedDraw).data.head? ≠ some '0' ∧
    |roundDouble (10000 + roundDouble (skewedDraw.toRat * 90000)) -
      (10000 + 90000 * skewedDraw.toRat)| ≤ 1 / 2 ^ 36 ∧
    (∃ q : Double, 0 ≤ q.toRat ∧ q.toRat < 1 ∧ generateCode q = toString (99999 : Int)) :=
  have hlt : skewedDraw.toRat < 1 := skewedDraw_generateCode.1
  have hthm := generateCode_binary64 skewedDraw hlt
  ⟨hlt, skewedDraw_generateCode.2, hthm.2.1, hthm.2.2.1, hthm.2.2.2.1,
    hthm.2.2.2.2.1, hthm.2.2.2.2.2.1,
    (hthm.2.2.2.2.2.2.2 99999 (by norm_num) (by norm_num)).1⟩

/-! ## Creation: the chosen code, the timestamps, the notification (C11, C13, C14) -/

theorem createInvitationAndSendEmail_ok {s s' : Store} {auth : Option String}
    {data : CreateData} {env : CreateEnv} {reply : CreateReply}
    (h : createInvitationAndSendEmail s auth data env = some (s', .ok reply)) :
    ∃ code, pickCode s env.codes = some code ∧
      s' = setDoc s (newInvitation data env code) ∧
      reply = createReply (newInvitation data env code) (emailOutcome env) := by
  unfold createInvitationAndSendEmail at h
  cases auth with
  | none => simp at h
  | some uid =>
    simp only at h
    cases hp : pickCode s env.codes with
    | none =>
      rw [hp] at h
      split_ifs at h <;> simp at h
    | some code =>
      rw [hp] at h
      simp only at h
      split_ifs at h <;> simp at h
      exact ⟨code, rfl, h.1.symm, h.2.symm⟩

theorem createInvitationAndSendEmail_valid (s : Store) (uid : String) (data : CreateData)
    (env : CreateEnv) (code : String) (h1 : data.therapistId ≠ "")
    (h2 : data.patientEmail ≠ "") (h3 : data.patientFirstName ≠ "")
    (hown : uid = data.therapistId) (hfault : env.fault = .none)
    (hp : pickCode s env.codes = some code) :
    createInvitationAndSendEmail s (some uid) data env =
      some (setDoc s (newInvitation data env code),
        .ok (createReply (newInvitation data env code) (emailOutcome env))) := by
  unfold createInvitationAndSendEmail
  simp [h1, h2, h3, hown, hfault, hp]

theorem setDoc_spec (s : Store) (doc : InvitationDoc) :
    doc ∈ setDoc s doc ∧ ∀ d ∈ setDoc s doc, d.id = doc.id → d = doc := by
  unfold setDoc
  by_cases hany : s.any (fun d => d.id == doc.id) = true
  · rw [if_pos hany]
    constructor
    · obtain ⟨d0, hd0, hid⟩ := List.any_eq_true.1 hany
      have hid0 : d0.id = doc.id := by simpa using hid
      exact List.mem_map.2 ⟨d0, hd0, by rw [if_pos hid0]⟩
    · intro d hd hid
      obtain ⟨d0, _, hEq⟩ := List.mem_map.1 hd
      by_cases h0 : d0.id = doc.id
      · rw [if_pos h0] at hEq
        exact hEq.symm
      · rw [if_neg h0] at hEq
        rw [← hEq] at hid
        exact absurd hid h0
  · rw [if_neg hany]
    constructor
    · simp
    · intro d hd hid
      rcases List.mem_append.1 hd with h1 | h1
      · exfalso
        apply hany
        exact List.any_eq_true.2 ⟨d, h1, by simpa using hid⟩
      · simpa using h1

theorem pickCode_first {s : Store} {codes : List String} {code : String}
    (h : pickCode s codes = some code) :
    ∃ pre post, codes = pre ++ code :: post ∧ (∀ c ∈ pre, codeExists s c = true) ∧
      codeExists s code = false := by
  unfold pickCode at h
  induction codes with
  | nil => simp at h
  | cons c rest ih =>
    by_cases hc : codeExists s c = true
    · have hrest : rest.find? (fun c => !codeExists s c) = some code := by
        simpa [List.find?_cons, hc] using h
      obtain ⟨pre, post, hEq, hpre, hcode⟩ := ih hrest
      refine ⟨c :: pre, post, by rw [hEq]; rfl, ?_, hcode⟩
      intro x hx
      rcases List.mem_cons.1 hx with rfl | hx
      · exact hc
      · exact hpre x hx
    · have hc' : codeExists s c = false := by simpa using hc
      have : c = code := by simpa [List.find?_cons, hc'] using h
      subst this
      exact ⟨[], rest, rfl, by simp, hc'⟩

theorem codeExists_eq_false {s : Store} {code : String} :
    codeExists s code = false ↔ ∀ d ∈ s, d.code ≠ code := by
  unfold codeExists
  rw [← queryByCode_eq_nil]
  cases queryByCode s code <;> simp

theorem toDate_fromMillis (ms : Int) : (Timestamp.fromMillis ms).toDate = ms := by
  unfold Timestamp.fromMillis Timestamp.toDate
  simp only [Int.ofNat_eq_coe]
  omega

theorem createInvitationAndSendEmail_store_code {s s' : Store} {auth : Option String}
    {data : CreateData} {env : CreateEnv} {r : Except HttpsError CreateReply}
    (h : createInvitationAndSendEmail s auth data env = some (s', r)) :
    s' = s ∨ s' = deleteDoc s env.newId ∨
    ∃ code, pickCode s env.codes = some code ∧
      (s' = setDoc s (newInvitation data env code) ∨
        s' = deleteDoc (setDoc s (newInvitation data env code)) env.newId) := by
  unfold createInvitationAndSendEmail at h
  cases auth with
  | none =>
    simp only [Option.some.injEq, Prod.mk.injEq] at h
    exact Or.inl h.1.symm
  | some uid =>
    simp only at h
    cases hp : pickCode s env.codes with
    | none =>
      rw [hp] at h
      split_ifs at h <;> simp only [Option.some.injEq, Prod.mk.injEq, reduceCtorEq] at h <;>
        exact Or.inl h.1.symm
    | some code =>
      rw [hp] at h
      simp only at h
      split_ifs at h <;> simp only [Option.some.injEq, Prod.mk.injEq] at h <;>
        first
        | exact Or.inl h.1.symm
        | exact Or.inr (Or.inl h.1.symm)
        | exact Or.inr (Or.inr ⟨code, rfl, Or.inl h.1.symm⟩)
        | exact Or.inr (Or.inr ⟨code, rfl, Or.inr h.1.symm⟩)

theorem codes_updateDoc_consume (s : Store) (ref P : String) (t : Timestamp) :
    (updateDoc s ref (consume P t)).map (fun d => d.code) = s.map (fun d => d.code) := by
  unfold updateDoc
  rw [List.map_map]
  apply List.map_congr_left
  intro d _
  by_cases h : d.id = ref <;> simp [h, consume]

theorem codes_nodup_deleteDoc {s : Store} (ref : String)
    (h : (s.map (fun d => d.code)).Nodup) :
    ((deleteDoc s ref).map (fun d => d.code)).Nodup :=
  (List.Sublist.map _ (List.filter_sublist _)).nodup h

theorem codes_nodup_append {s : Store} {doc : InvitationDoc}
    (h : (s.map (fun d => d.code)).Nodup) (hnew : ∀ d ∈ s, d.code ≠ doc.code) :
    ((s ++ [doc]).map (fun d => d.code)).Nodup := by
  rw [List.map_append, List.nodup_append]
  refine ⟨h, by simp, ?_⟩
  intro c hc hc'
  obtain ⟨d, hd, rfl⟩ := List.mem_map.1 hc
  simp only [List.map_cons, List.map_nil, List.mem_singleton] at hc'
  exact hnew d hd hc'

/-- C11: uniqueness at generation, with operations taken as atomic steps. If the codes
of the store are pairwise distinct before a step of any operation (a creation getting
a document id not yet in the store), they are pairwise distinct after it. For a
successful creation whose candidates are results of generateCode on binary64 draws in
[0, 1),
the persisted code is the first candidate of the sequence for which codeExists is
false, it is a string of exactly five digits, it differs from the code of every record
already in the store, and the store afterwards is the store before plus the new record. -/
theorem codes_unique_at_generation (s s' : Store) (op : Op)
    (hfresh : ∀ auth data env, op = .create auth data env → ∀ d ∈ s, d.id ≠ env.newId)
    (hstep : step s op = some s') (hdist : (s.map (fun d => d.code)).Nodup) :
    (s'.map (fun d => d.code)).Nodup ∧
    ∀ auth data env reply (draws : List Double), op = .create auth data env →
      createInvitationAndSendEmail s auth data env = some (s', .ok reply) →
      (∀ r ∈ draws, 0 ≤ r.toRat ∧ r.toRat < 1) → env.codes = draws.map generateCode →
      ∃ code pre post, env.codes = pre ++ code :: post ∧
        (∀ c ∈ pre, codeExists s c = true) ∧ codeExists s code = false ∧
        isFiveDigits code = true ∧ (∀ d ∈ s, d.code ≠ code) ∧
        s' = s ++ [newInvitation data env code] ∧ reply.invitation.code = code := by
  constructor
  · cases op with
    | create auth data env =>
      have hf := hfresh auth data env rfl
      have hmap : (createInvitationAndSendEmail s auth data env).map Prod.fst = some s' := hstep
      obtain ⟨⟨s1, r⟩, hr, hfst⟩ := Option.map_eq_some'.1 hmap
      have hs1 : s' = s1 := hfst.symm
      subst hs1
      have hfd : ∀ code, ∀ d ∈ s, d.id ≠ (newInvitation data env code).id := fun _ => hf
      rcases createInvitationAndSendEmail_store_code hr with h | h | ⟨code, hp, h | h⟩
      · rw [h]; exact hdist
      · rw [h]; exact codes_nodup_deleteDoc _ hdist
      · rw [h, setDoc_fresh (hfd code)]
        obtain ⟨_, _, _, _, hfree⟩ := pickCode_first hp
        exact codes_nodup_append hdist (codeExists_eq_false.1 hfree)
      · have hdel := deleteDoc_setDoc_fresh (hfd code)
        have hid : (newInvitation data env code).id = env.newId := rfl
        rw [hid] at hdel
        rw [h, hdel]
        exact hdist
    | redeem auth raw clk =>
      simp only [step, Option.some.injEq] at hstep
      rcases validateAndUseInvitation_store s auth raw clk with h | ⟨inv, P, _, _, h⟩
      · rw [← hstep, h]; exact hdist
      · rw [← hstep, h, codes_updateDoc_consume]; exact hdist
    | delete auth invitationId =>
      simp only [step, Option.some.injEq] at hstep
      rcases deleteInvitation_store s auth invitationId with h | ⟨inv, _, _, h⟩
      · rw [← hstep, h]; exact hdist
      · rw [← hstep, h]; exact codes_nodup_deleteDoc _ hdist
    | preview raw now =>
      simp only [step, Option.some.injEq] at hstep
      rw [← hstep]; exact hdist
    | listTherapist auth arg =>
      simp only [step, Option.some.injEq] at hstep
      rw [← hstep]; exact hdist
    | listAcceptedTherapist auth arg =>
      simp only [step, Option.some.injEq] at hstep
      rw [← hstep]; exact hdist
    | listAcceptedPatient auth arg =>
      simp only [step, Option.some.injEq] at hstep
      rw [← hstep]; exact hdist
  · intro auth data env reply draws hop hok hdraws hcodes
    have hf := hfresh auth data env hop
    obtain ⟨code, hp, hs', hreply⟩ := createInvitationAndSendEmail_ok hok
    obtain ⟨pre, post, hEq, hpre, hfree⟩ := pickCode_first hp
    have hmem : code ∈ draws.map generateCode := by
      rw [← hcodes, hEq]
      simp
    obtain ⟨r, hr, hgen⟩ := List.mem_map.1 hmem
    have hb := codeNumber_bounds r (hdraws r hr).2
    have hfive : isFiveDigits code = true := by
      rw [← hgen]
      exact (toString_fiveDigits (codeNumber r) hb.1 hb.2).1
    refine ⟨code, pre, post, hEq, hpre, hfree, hfive, codeExists_eq_false.1 hfree, ?_, ?_⟩
    · rw [hs', setDoc_fresh (fun d hd => hf d hd)]
    · rw [hreply]
      rfl

theorem newEnv_codes_generated :
    newEnv.codes = [draw12345, draw40404].map generateCode ∧
    ∀ r ∈ [draw12345, draw40404], 0 ≤ r.toRat ∧ r.toRat < 1 := by
  have v1 : draw12345.toRat = 27325 / 2 ^ 20 := by
    unfold Double.toRat draw12345
    norm_num [zpow_neg]
  have v2 : draw40404.toRat = 354240 / 2 ^ 20 := by
    unfold Double.toRat draw40404
    norm_num [zpow_neg]
  have l1 : draw12345.toRat < 1 := by rw [v1]; norm_num
  have l2 : draw40404.toRat < 1 := by rw [v2]; norm_num
  have h1 : codeNumber draw12345 = 12345 :=
    codeNumber_of_exact draw12345 l1 12345 (by rw [v1]; norm_num) (by rw [v1]; norm_num)
  have h2 : codeNumber draw40404 = 40404 :=
    codeNumber_of_exact draw40404 l2 40404 (by rw [v2]; norm_num) (by rw [v2]; norm_num)
  have s1 : generateCode draw12345 = "12345" := by
    rw [generateCode_eq, h1]
    decide
  have s2 : generateCode draw40404 = "40404" := by
    rw [generateCode_eq, h2]
    decide
  constructor
  · rw [List.map_cons, List.map_cons, List.map_nil, s1, s2]
    rfl
  · intro r hr
    simp only [List.mem_cons, List.mem_singleton, List.not_mem_nil, or_false] at hr
    rcases hr with rfl | rfl
    · exact ⟨Double.toRat_nonneg _, l1⟩
    · exact ⟨Double.toRat_nonneg _, l2⟩

theorem codes_unique_at_generation_witness :
    step [pendingDoc, usedDoc] (.create (some "T1") newPatient newEnv)
      = some [pendingDoc, usedDoc, createdDoc] ∧
    ([pendingDoc, usedDoc, createdDoc].map (fun d => d.code)).Nodup ∧
    ∃ code pre post, newEnv.codes = pre ++ code :: post ∧
      (∀ c ∈ pre, codeExists [pendingDoc, usedDoc] c = true) ∧
      codeExists [pendingDoc, usedDoc] code = false ∧
      isFiveDigits code = true ∧ (∀ d ∈ [pendingDoc, usedDoc], d.code ≠ code) ∧
      [pendingDoc, usedDoc, createdDoc] =
        [pendingDoc, usedDoc] ++ [newInvitation newPatient newEnv code] ∧
      (createReply createdDoc true).invitation.code = code :=
  ⟨by decide,
    (codes_unique_at_generation [pendingDoc, usedDoc] [pendingDoc, usedDoc, createdDoc]
      (.create (some "T1") newPatient newEnv)
      (fun _ _ env h d hd => by
        cases h
        revert d
        decide)
      (by decide) (by decide)).1,
    (codes_unique_at_generation [pendingDoc, usedDoc] [pendingDoc, usedDoc, createdDoc]
      (.create (some "T1") newPatient newEnv)
      (fun _ _ env h d hd => by
        cases h
        revert d
        decide)
      (by decide) (by decide)).2 (some "T1") newPatient newEnv (createReply createdDoc true)
      [draw12345, draw40404] rfl (by decide) newEnv_codes_generated.2
      newEnv_codes_generated.1⟩

/-- C13, as stated, fails: when the clock moves between the two reads (5000 ms for
Timestamp.now(), 5001 ms for Date.now()) the persisted record expires 48 hours and 1 ms
after its created_at. -/
theorem create_expiry_two_clock_reads :
    createInvitationAndSendEmail [pendingDoc, usedDoc] (some "T1") newPatient newEnv
      = some ([pendingDoc, usedDoc, createdDoc], .ok (createReply createdDoc true)) ∧
    createdDoc.is_used = false ∧
    createdAtDate createdDoc = 5000 ∧ expiresAtDate createdDoc = 172805001 ∧
    expiresAtDate createdDoc ≠ createdAtDate createdDoc + 172800000 ∧
    createdDoc.created_at = some { seconds := 5, nanoseconds := 0 } ∧
    createdDoc.expires_at ≠ some { seconds := 5 + 172800, nanoseconds := 0 } := by
  decide

/-- C13 (amended): for every successful createInvitationAndSendEmail the persisted record
(the only record with the new id) has is_used = false, its created_at is the instant
read by Timestamp.now() and its expires_at is the instant read by Date.now() plus
exactly 48 hours (172800000 ms); so expires_at is created_at plus 48 hours plus the
difference of the two clock reads, and is created_at plus exactly 48 hours when the two
reads return the same value. -/
theorem create_record_timestamps (s s' : Store) (auth : Option String) (data : CreateData)
    (env : CreateEnv) (reply : CreateReply)
    (h : createInvitationAndSendEmail s auth data env = some (s', .ok reply)) :
    ∃ doc, doc ∈ s' ∧ (∀ d ∈ s', d.id = env.newId → d = doc) ∧
      doc.id = reply.invitationId ∧ doc.is_used = false ∧ reply.invitation.isUsed = false ∧
      doc.created_at = some (Timestamp.fromMillis env.stampNow) ∧
      doc.expires_at = some (Timestamp.fromMillis (env.dateNow + 172800000)) ∧
      createdAtDate doc = env.stampNow ∧ expiresAtDate doc = env.dateNow + 172800000 ∧
      expiresAtDate doc = createdAtDate doc + 172800000 + (env.dateNow - env.stampNow) ∧
      (env.dateNow = env.stampNow → expiresAtDate doc = createdAtDate doc + 172800000) := by
  obtain ⟨code, _, hs', hreply⟩ := createInvitationAndSendEmail_ok h
  have hspec := setDoc_spec s (newInvitation data env code)
  have hc : createdAtDate (newInvitation data env code) = env.stampNow :=
    toDate_fromMillis env.stampNow
  have he : expiresAtDate (newInvitation data env code) = env.dateNow + 172800000 :=
    toDate_fromMillis (env.dateNow + 48 * 60 * 60 * 1000)
  refine ⟨newInvitation data env code, ?_, ?_, ?_, rfl, ?_, rfl, rfl, hc, he, ?_, ?_⟩
  · rw [hs']
    exact hspec.1
  · rw [hs']
    exact hspec.2
  · rw [hreply]
    rfl
  · rw [hreply]
    rfl
  · rw [hc, he]
    ring
  · intro hsame
    rw [hc, he, hsame]

theorem create_record_timestamps_witness :
    ∃ doc, doc ∈ [pendingDoc, usedDoc, createdDoc] ∧
      (∀ d ∈ [pendingDoc, usedDoc, createdDoc], d.id = newEnv.newId → d = doc) ∧
      doc.id = (createReply createdDoc true).invitationId ∧ doc.is_used = false ∧
      (createReply createdDoc true).invitation.isUsed = false ∧
      doc.created_at = some (Timestamp.fromMillis newEnv.stampNow) ∧
      doc.expires_at = some (Timestamp.fromMillis (newEnv.dateNow + 172800000)) ∧
      createdAtDate doc = newEnv.stampNow ∧ expiresAtDate doc = newEnv.dateNow + 172800000 ∧
      expiresAtDate doc =
        createdAtDate doc + 172800000 + (newEnv.dateNow - newEnv.stampNow) ∧
      (newEnv.dateNow = newEnv.stampNow →
        expiresAtDate doc = createdAtDate doc + 172800000) :=
  create_record_timestamps [pendingDoc, usedDoc] [pendingDoc, usedDoc, createdDoc]
    (some "T1") newPatient newEnv (createReply createdDoc true) (by decide)

/-- C14: for every valid authenticated creation request (required fields present, caller
= therapistId) in which no store call fails and the retry loop ends with a code, and
for every outcome of the notification step, createInvitationAndSendEmail returns
success with the invitation and the record is in the store afterwards; emailSent is
true if and only if delivery was enabled, the sender address was non-empty and the
send call did not throw, and false in every other case. -/
theorem create_succeeds_whatever_email (s : Store) (uid : String) (data : CreateData)
    (env : CreateEnv) (code : String) (h1 : data.therapistId ≠ "")
    (h2 : data.patientEmail ≠ "") (h3 : data.patientFirstName ≠ "")
    (hown : uid = data.therapistId) (hfault : env.fault = .none)
    (hp : pickCode s env.codes = some code) :
    ∃ s' reply, createInvitationAndSendEmail s (some uid) data env = some (s', .ok reply) ∧
      reply.success = true ∧ reply.invitationId = env.newId ∧
      reply.invitation.id = env.newId ∧ reply.invitation.code = code ∧
      reply.invitation.therapistId = uid ∧
      (∃ doc ∈ s', doc.id = env.newId ∧ doc.code = code ∧ doc.therapist_id = uid ∧
        doc.is_used = false) ∧
      (reply.emailSent = true ↔
        (env.enabled = true ∧ senderAddress env ≠ "" ∧ env.sendThrows = false)) ∧
      (reply.emailSent = false ↔
        (env.enabled = false ∨ senderAddress env = "" ∨ env.sendThrows = true)) := by
  refine ⟨_, _, createInvitationAndSendEmail_valid s uid data env code h1 h2 h3 hown hfault hp,
    rfl, rfl, rfl, rfl, hown.symm, ⟨_, (setDoc_spec s _).1, rfl, rfl, hown.symm, rfl⟩, ?_, ?_⟩
  · simp only [createReply, emailOutcome, Bool.and_eq_true, bne_iff_ne, ne_eq,
      Bool.not_eq_true', and_assoc]
  · simp only [createReply, emailOutcome]
    cases env.enabled <;> cases env.sendThrows <;> by_cases hs : senderAddress env = "" <;>
      simp [hs]

theorem create_succeeds_whatever_email_witness :
    pickCode [pendingDoc, usedDoc] throwingEnv.codes = some "40404" ∧
    ∃ s' reply, createInvitationAndSendEmail [pendingDoc, usedDoc] (some "T1") newPatient
        throwingEnv = some (s', .ok reply) ∧
      reply.success = true ∧ reply.invitationId = throwingEnv.newId ∧
      reply.invitation.id = throwingEnv.newId ∧ reply.invitation.code = "40404" ∧
      reply.invitation.therapistId = "T1" ∧
      (∃ doc ∈ s', doc.id = throwingEnv.newId ∧ doc.code = "40404" ∧
        doc.therapist_id = "T1" ∧ doc.is_used = false) ∧
      (reply.emailSent = true ↔
        (throwingEnv.enabled = true ∧ senderAddress throwingEnv ≠ "" ∧
          throwingEnv.sendThrows = false)) ∧
      (reply.emailSent = false ↔
        (throwingEnv.enabled = false ∨ senderAddress throwingEnv = "" ∨
          throwingEnv.sendThrows = true)) :=
  ⟨by decide,
    create_succeeds_whatever_email [pendingDoc, usedDoc] "T1" newPatient throwingEnv "40404"
      (by decide) (by decide) (by decide) (by decide) (by decide) (by decide)⟩

/-! ## generateAiChatCompletion: token count and temperature (C15) -/

theorem chatCompletionRequest_fields {auth : Option String} {apiKey : String} {data : ChatData}
    {req : ChatRequest} (h : chatCompletionRequest auth apiKey data = .ok req) :
    req.max_tokens = maxTokensOf data ∧ req.temperature = temperatureOf data := by
  unfold chatCompletionRequest at h
  cases auth with
  | none => simp at h
  | some uid =>
    simp only at h
    split_ifs at h
    cases hm : data.messages with
    | none => simp [hm] at h
    | some l =>
      cases l with
      | nil => simp [hm] at h
      | cons e es =>
        simp only [hm] at h
        cases hc : checkMessages 0 (e :: es) with
        | error err => simp [hc] at h
        | ok ms =>
          simp only [hc, Except.ok.injEq] at h
          rw [← h]
          exact ⟨rfl, rfl⟩

theorem chatCompletionRequest_ok (uid apiKey : String) (data : ChatData) (e : ChatEntry)
    (es : List ChatEntry) (ms : List ChatMessage) (hk : apiKey ≠ "") (hk2 : jsTrim apiKey ≠ "")
    (hm : data.messages = some (e :: es)) (hc : checkMessages 0 (e :: es) = .ok ms) :
    ∃ req, chatCompletionRequest (some uid) apiKey data = .ok req ∧ req.messages = ms := by
  unfold chatCompletionRequest
  simp [hk, hk2, hm, hc]

theorem jsTrunc_spec (q : ℚ) :
    (0 ≤ q → ((jsTrunc q : Int) : ℚ) ≤ q ∧ q < (jsTrunc q : Int) + 1) ∧
    (q ≤ 0 → q ≤ ((jsTrunc q : Int) : ℚ) ∧ ((jsTrunc q : Int) : ℚ) - 1 < q) := by
  unfold jsTrunc
  constructor
  · intro h0
    rw [if_pos h0]
    exact ⟨Int.floor_le q, Int.lt_floor_add_one q⟩
  · intro h0
    by_cases h : 0 ≤ q
    · have hq : q = 0 := le_antisymm h0 h
      rw [if_pos h, hq]
      simp
    · rw [if_neg h]
      exact ⟨Int.le_ceil q, by linarith [Int.ceil_lt_add_one q]⟩

theorem jsTrunc_eq_of_nonneg {q : ℚ} (k : Int) (h0 : 0 ≤ q) (h1 : (k : ℚ) ≤ q)
    (h2 : q < k + 1) : jsTrunc q = k := by
  unfold jsTrunc
  rw [if_pos h0]
  exact Int.floor_eq_iff.2 ⟨h1, h2⟩

theorem jsTrunc_eq_of_neg {q : ℚ} (k : Int) (h0 : q < 0) (h1 : q ≤ (k : ℚ))
    (h2 : (k : ℚ) - 1 < q) : jsTrunc q = k := by
  unfold jsTrunc
  rw [if_neg (not_le.2 h0)]
  exact Int.ceil_eq_iff.2 ⟨h2, h1⟩

theorem chatDataWith_request (tokens alt temp : Option JsNumber) :
    chatCompletionRequest (some "U") "sk-1" (chatDataWith tokens alt temp) =
      .ok { model := "gpt-4o-mini", messages := [{ role := "user", content := "hi" }],
            max_tokens := maxTokensOf (chatDataWith tokens alt temp),
            temperature := temperatureOf (chatDataWith tokens alt temp) } := by
  have h1 : ¬ (("sk-1" : String) = "" ∨ jsTrim "sk-1" = "") := by decide
  have h2 : checkMessages 0 [{ role := some "user", content := some "hi" }] =
      .ok [{ role := "user", content := "hi" }] := by decide
  simp only [chatCompletionRequest, if_neg h1, chatDataWith, h2]

theorem chatDataWith_examples :
    chatCompletionRequest (some "U") "sk-1"
        (chatDataWith (some (.finite (5 / 2))) (some (.finite 7)) (some (.finite 3))) =
      .ok { model := "gpt-4o-mini", messages := [{ role := "user", content := "hi" }],
            max_tokens := 2, temperature := 2 } ∧
    chatCompletionRequest (some "U") "sk-1"
        (chatDataWith (some (.finite (-16 / 5))) (some (.finite 7)) none) =
      .ok { model := "gpt-4o-mini", messages := [{ role := "user", content := "hi" }],
            max_tokens := 1, temperature := 7 / 10 } ∧
    chatCompletionRequest (some "U") "sk-1"
        (chatDataWith none (some (.finite (3001 / 2))) (some (.finite (3 / 2)))) =
      .ok { model := "gpt-4o-mini", messages := [{ role := "user", content := "hi" }],
            max_tokens := 1500, temperature := 3 / 2 } ∧
    chatCompletionRequest (some "U") "sk-1"
        (chatDataWith (some .nan) (some (.finite 7)) (some .posInf)) =
      .ok { model := "gpt-4o-mini", messages := [{ role := "user", content := "hi" }],
            max_tokens := 800, temperature := 7 / 10 } ∧
    chatCompletionRequest (some "U") "sk-1"
        (chatDataWith (some (.finite (25007 / 10))) none (some (.finite (-1)))) =
      .ok { model := "gpt-4o-mini", messages := [{ role := "user", content := "hi" }],
            max_tokens := 2000, temperature := 0 } := by
  have t1 := jsTrunc_eq_of_nonneg (q := 5 / 2) 2 (by norm_num) (by norm_num) (by norm_num)
  have t2 := jsTrunc_eq_of_neg (q := -16 / 5) (-3) (by norm_num) (by norm_num) (by norm_num)
  have t3 := jsTrunc_eq_of_nonneg (q := 3001 / 2) 1500 (by norm_num) (by norm_num)
    (by norm_num)
  have t4 := jsTrunc_eq_of_nonneg (q := 25007 / 10) 2500 (by norm_num) (by norm_num)
    (by norm_num)
  refine ⟨?_, ?_, ?_, ?_, ?_⟩
  · rw [chatDataWith_request]
    simp [maxTokensOf, temperatureOf, tokenField, chatDataWith, t1]
    norm_num
  · rw [chatDataWith_request]
    simp [maxTokensOf, temperatureOf, tokenField, chatDataWith, t2]
    norm_num
  · rw [chatDataWith_request]
    simp [maxTokensOf, temperatureOf, tokenField, chatDataWith, t3]
    norm_num
  · rw [chatDataWith_request]
    simp [maxTokensOf, temperatureOf, tokenField, chatDataWith]
  · rw [chatDataWith_request]
    simp [maxTokensOf, temperatureOf, tokenField, chatDataWith, t4]

/-- C15: for every request to generateAiChatCompletion that is forwarded upstream, the
max_tokens forwarded is an integer between 1 and 2000 and the temperature is between 0
and 2, values taken as exact rationals. With x = maxOutputTokens, or max_tokens when
maxOutputTokens is absent: the token count is 800 when x is absent or not a finite
number, otherwise max(1, min(k, 2000)) where k is x truncated toward zero (the integer
with k <= x < k + 1 for x >= 0 and k - 1 < x <= k for x <= 0), which is k when
1 <= k <= 2000. The temperature is 0.7 when it is absent or not a finite number,
otherwise max(0, min(t, 2)), which is t when 0 <= t <= 2. A request with a caller, an
API key and valid messages is forwarded. -/
theorem chat_request_token_and_temperature (auth : Option String) (apiKey : String)
    (data : ChatData) (req : ChatRequest)
    (h : chatCompletionRequest auth apiKey data = .ok req) :
    (1 ≤ req.max_tokens ∧ req.max_tokens ≤ 2000 ∧
      0 ≤ req.temperature ∧ req.temperature ≤ 2) ∧
    (∀ x, (data.maxOutputTokens = some x ∨
        (data.maxOutputTokens = none ∧ data.max_tokens = some x)) →
      ((∀ q, x ≠ .finite q) → req.max_tokens = 800) ∧
      (∀ q, x = .finite q → ∃ k : Int,
        ((0 ≤ q → (k : ℚ) ≤ q ∧ q < k + 1) ∧ (q ≤ 0 → q ≤ (k : ℚ) ∧ (k : ℚ) - 1 < q)) ∧
        req.max_tokens = max 1 (min k 2000) ∧
        (1 ≤ k → k ≤ 2000 → req.max_tokens = k))) ∧
    (data.maxOutputTokens = none → data.max_tokens = none → req.max_tokens = 800) ∧
    (data.temperature = none → req.temperature = 7 / 10) ∧
    (∀ x, data.temperature = some x → (∀ t, x ≠ .finite t) → req.temperature = 7 / 10) ∧
    (∀ t, data.temperature = some (.finite t) →
      req.temperature = max 0 (min t 2) ∧ (0 ≤ t → t ≤ 2 → req.temperature = t)) ∧
    (∀ uid e es ms, auth = some uid → apiKey ≠ "" → jsTrim apiKey ≠ "" →
      data.messages = some (e :: es) → checkMessages 0 (e :: es) = .ok ms →
      ∃ r, chatCompletionRequest auth apiKey data = .ok r) := by
  obtain ⟨hmax, htmp⟩ := chatCompletionRequest_fields h
  rw [hmax, htmp]
  have h800 : jsTrunc 800 = 800 :=
    jsTrunc_eq_of_nonneg 800 (by norm_num) (by norm_num) (by norm_num)
  have htokval : ∀ x, tokenField data = some x →
      ((∀ q, x ≠ .finite q) → maxTokensOf data = 800) ∧
      (∀ q, x = .finite q → maxTokensOf data = max 1 (min (jsTrunc q) 2000)) := by
    intro x hx
    constructor
    · intro hnf
      cases x with
      | finite q => exact absurd rfl (hnf q)
      | nan => simp [maxTokensOf, hx]
      | posInf => simp [maxTokensOf, hx]
      | negInf => simp [maxTokensOf, hx]
    · intro q hq
      subst hq
      simp [maxTokensOf, hx]
  have htok : 1 ≤ maxTokensOf data ∧ maxTokensOf data ≤ 2000 := by
    cases hx : tokenField data with
    | none => simp [maxTokensOf, hx, h800]
    | some x =>
      cases x with
      | finite q =>
        rw [(htokval _ hx).2 q rfl]
        exact ⟨le_max_left _ _, max_le (by norm_num) (min_le_right _ _)⟩
      | nan => rw [(htokval _ hx).1 (fun q hq => by cases hq)]; norm_num
      | posInf => rw [(htokval _ hx).1 (fun q hq => by cases hq)]; norm_num
      | negInf => rw [(htokval _ hx).1 (fun q hq => by cases hq)]; norm_num
  have htempval : ∀ t, data.temperature = some (.finite t) →
      temperatureOf data = max 0 (min t 2) := by
    intro t ht
    simp [temperatureOf, ht]
  have htempdef : ∀ x, data.temperature = some x → (∀ t, x ≠ .finite t) →
      temperatureOf data = 7 / 10 := by
    intro x hx hnf
    cases x with
    | finite t => exact absurd rfl (hnf t)
    | nan => simp [temperatureOf, hx]
    | posInf => simp [temperatureOf, hx]
    | negInf => simp [temperatureOf, hx]
  have htempnone : data.temperature = none → temperatureOf data = 7 / 10 := by
    intro hx
    have : temperatureOf data = max 0 (min (7 / 10) 2) := by
      simp [temperatureOf, hx]
    rw [this]
    norm_num
  have htemp : 0 ≤ temperatureOf data ∧ temperatureOf data ≤ 2 := by
    cases hx : data.temperature with
    | none => rw [htempnone hx]; norm_num
    | some x =>
      cases x with
      | finite t =>
        rw [htempval t hx]
        exact ⟨le_max_left _ _, max_le (by norm_num) (min_le_right _ _)⟩
      | nan => rw [htempdef _ hx (fun t ht => by cases ht)]; norm_num
      | posInf => rw [htempdef _ hx (fun t ht => by cases ht)]; norm_num
      | negInf => rw [htempdef _ hx (fun t ht => by cases ht)]; norm_num
  refine ⟨⟨htok.1, htok.2, htemp.1, htemp.2⟩, ?_, ?_, htempnone, htempdef, ?_, ?_⟩
  · intro x hx
    have hfield : tokenField data = some x := by
      rcases hx with hx | ⟨hx1, hx2⟩
      · simp [tokenField, hx]
      · simp [tokenField, hx1, hx2]
    refine ⟨(htokval x hfield).1, ?_⟩
    intro q hq
    have hval := (htokval x hfield).2 q hq
    refine ⟨jsTrunc q, jsTrunc_spec q, hval, ?_⟩
    intro h1 h2
    rw [hval, min_eq_left h2, max_eq_right h1]
  · intro h1 h2
    have hfield : tokenField data = none := by simp [tokenField, h1, h2]
    simp [maxTokensOf, hfield, h800]
  · intro t ht
    refine ⟨htempval t ht, ?_⟩
    intro h1 h2
    rw [htempval t ht, min_eq_left h2, max_eq_right h1]
  · intro uid e es ms hauth hk hk2 hm hc
    rw [hauth]
    obtain ⟨r, hr, _⟩ := chatCompletionRequest_ok uid apiKey data e es ms hk hk2 hm hc
    exact ⟨r, hr⟩

theorem chat_request_token_and_temperature_witness :
    (chatCompletionRequest (some "U") "sk-1"
        (chatDataWith (some (.finite (5 / 2))) (some (.finite 7)) (some (.finite 3))) =
      .ok { model := "gpt-4o-mini", messages := [{ role := "user", content := "hi" }],
            max_tokens := 2, temperature := 2 } ∧
    chatCompletionRequest (some "U") "sk-1"
        (chatDataWith (some (.finite (-16 / 5))) (some (.finite 7)) none) =
      .ok { model := "gpt-4o-mini", messages := [{ role := "user", content := "hi" }],
            max_tokens := 1, temperature := 7 / 10 } ∧
    chatCompletionRequest (some "U") "sk-1"
        (chatDataWith none (some (.finite (3001 / 2))) (some (.finite (3 / 2)))) =
      .ok { model := "gpt-4o-mini", messages := [{ role := "user", content := "hi" }],
            max_tokens := 1500, temperature := 3 / 2 } ∧
    chatCompletionRequest (some "U") "sk-1"
        (chatDataWith (some .nan) (some (.finite 7)) (some .posInf)) =
      .ok { model := "gpt-4o-mini", messages := [{ role := "user", content := "hi" }],
            max_tokens := 800, temperature := 7 / 10 } ∧
    chatCompletionRequest (some "U") "sk-1"
        (chatDataWith (some (.finite (25007 / 10))) none (some (.finite (-1)))) =
      .ok { model := "gpt-4o-mini", messages := [{ role := "user", content := "hi" }],
            max_tokens := 2000, temperature := 0 }) ∧
    (1 ≤ (2 : Int) ∧ (2 : Int) ≤ 2000 ∧ 0 ≤ (2 : ℚ) ∧ (2 : ℚ) ≤ 2) ∧
    (∃ k : Int,
      ((0 ≤ (5 / 2 : ℚ) → (k : ℚ) ≤ 5 / 2 ∧ (5 / 2 : ℚ) < k + 1) ∧
        ((5 / 2 : ℚ) ≤ 0 → (5 / 2 : ℚ) ≤ (k : ℚ) ∧ (k : ℚ) - 1 < 5 / 2)) ∧
      (2 : Int) = max 1 (min k 2000) ∧ (1 ≤ k → k ≤ 2000 → (2 : Int) = k)) ∧
    ((2 : ℚ) = max 0 (min 3 2)) :=
  have hreq := chatDataWith_examples.1
  have hthm := chat_request_token_and_temperature (some "U") "sk-1"
    (chatDataWith (some (.finite (5 / 2))) (some (.finite 7)) (some (.finite 3)))
    { model := "gpt-4o-mini", messages := [{ role := "user", content := "hi" }],
      max_tokens := 2, temperature := 2 } hreq
  ⟨chatDataWith_examples, hthm.1, (hthm.2.1 (.finite (5 / 2)) (Or.inl rfl)).2 (5 / 2) rfl,
    (hthm.2.2.2.2.2.1 3 rfl).1⟩

/-! ## saveAiConversationSummary: caller not linked to the therapist (C16) -/

/-- C16, as stated, fails: a caller whose profile is linked to T1 and who names T2 gets
permission-denied, not failed-precondition; no summary record is written. -/
theorem saveAiConversationSummary_not_linked_code :
    saveAiConversationSummary [linkedProfile] [] (some "P1") otherTherapistSummary "sum1"
        { seconds := 9, nanoseconds := 0 } =
      ([], .error { code := "permission-denied",
                    message := "You are not linked to this therapist." }) ∧
    (saveAiConversationSummary [linkedProfile] [] (some "P1") otherTherapistSummary "sum1"
        { seconds := 9, nanoseconds := 0 }).2 ≠
      .error { code := "failed-precondition",
               message := "You are not linked to this therapist." } ∧
    ("permission-denied" : String) ≠ "failed-precondition" := by
  decide

/-- C16 (amended): for every authenticated caller whose user profile exists and whose
profile therapist_id is empty or differs from the non-empty trimmed therapistId
argument, saveAiConversationSummary with a non-empty summary raises an error whose code
is permission-denied and writes no summary record. -/
theorem saveAiConversationSummary_not_linked (users : List UserProfile)
    (summaries : List SummaryDoc) (P t sm : String) (transcript : Option (List RawPart))
    (newId : String) (server : Timestamp) (profile : UserProfile)
    (hprof : users.find? (fun u => u.id == P) = some profile)
    (ht : jsTrim t ≠ "") (hs : jsTrim sm ≠ "")
    (hlink : orEmpty profile.therapist_id = "" ∨ orEmpty profile.therapist_id ≠ jsTrim t) :
    saveAiConversationSummary users summaries (some P)
        { therapistId := some t, summary := some sm, transcript := transcript } newId server =
      (summaries, .error { code := "permission-denied",
                           message := "You are not linked to this therapist." }) := by
  unfold saveAiConversationSummary
  simp only [ht, hs, if_false, hprof, if_pos hlink]

theorem saveAiConversationSummary_not_linked_witness :
    List.find? (fun u => u.id == "P1") [linkedProfile] = some linkedProfile ∧
    saveAiConversationSummary [linkedProfile] [] (some "P1")
        { therapistId := some " T2 ", summary := some "went well", transcript := none } "sum1"
        { seconds := 9, nanoseconds := 0 } =
      ([], .error { code := "permission-denied",
                    message := "You are not linked to this therapist." }) :=
  ⟨by decide,
    saveAiConversationSummary_not_linked [linkedProfile] [] "P1" " T2 " "went well" none "sum1"
      { seconds := 9, nanoseconds := 0 } linkedProfile (by decide) (by decide) (by decide)
      (by decide)⟩

end Therapii
